import Mathlib

/-! # AWS Route 53 DNS provider of the cluster ingress operator

A shallow embedding of `pkg/dns/aws/dns.go`: the provider's two caches
(`idsToTags`, `lbZones`), the zone and load-balancer resolvers, the alias
reconciler, `Ensure`/`Delete`, and the per-service client configuration.

Conventions of the embedding

* A Go `map[string]V` is a list of bindings with pairwise distinct keys
  (`GoMap`); a map value that may be nil is an `Option` of it.
* The order in which `range` visits a map is chosen by the Go runtime.  It is an
  explicit argument (`RangeOrder`): any function returning a permutation of the
  entries.
* The AWS collaborators (tagging, the two load-balancer inventories, Route 53)
  are arguments describing how they answer (`Clients`); every request sent to
  one of them is recorded as an `Event`.
* Go `error` values are terms of `Error`, one constructor per `fmt.Errorf` site.
-/

namespace AwsDns

/-! ## Go maps -/

/-- A non-nil Go `map[string]V`: bindings with pairwise distinct keys. -/
structure GoMap (V : Type) where
  entries : List (String × V)
  nodupKeys : (entries.map Prod.fst).Nodup

namespace GoMap

variable {V : Type}

instance [DecidableEq V] : DecidableEq (GoMap V) := fun a b =>
  decidable_of_iff (a.entries = b.entries)
    ⟨fun h => by cases a; cases b; simp_all, fun h => by rw [h]⟩

/-- The map literal `map[string]V{}`. -/
def empty : GoMap V := ⟨[], List.nodup_nil⟩

/-- The builtin `len(m)`. -/
def len (m : GoMap V) : Nat := m.entries.length

/-- The index expression `v, ok := m[k]`. -/
def get? (m : GoMap V) (k : String) : Option V :=
  (m.entries.find? (fun e => e.1 == k)).map Prod.snd

/-- The assignment `m[k] = v`: the binding of `k` is added, or replaced. -/
def set (m : GoMap V) (k : String) (v : V) : GoMap V :=
  ⟨(k, v) :: m.entries.filter (fun e => e.1 != k), by
    rw [List.map_cons, List.nodup_cons]
    refine ⟨?_, m.nodupKeys.sublist ((List.filter_sublist m.entries).map Prod.fst)⟩
    intro hk
    obtain ⟨e, he, hek⟩ := List.mem_map.1 hk
    have hne := (List.mem_filter.1 he).2
    simp at hne
    exact hne hek⟩

end GoMap

/-- A tag mapping `map[string]string`, which may be the nil map (`none`). -/
abbrev Tags := Option (GoMap String)

/-- The key/value pairs of a tag mapping; the nil map has none. -/
def Tags.pairs : Tags → List (String × String)
  | none => []
  | some m => m.entries

/-- The function `reflect.DeepEqual` at type `map[string]string`: both nil or both
non-nil, the same length, and every key of the first bound to an equal value in
the second. -/
def deepEqual : Tags → Tags → Bool
  | none, none => true
  | some a, some b =>
    a.len == b.len && a.entries.all (fun e => b.get? e.1 == some e.2)
  | _, _ => false

/-! ## Strings -/

/-- The helper `aws.StringValue`: the empty string for a nil pointer. -/
def stringValue : Option String → String
  | none => ""
  | some s => s

/-- The function `strings.HasPrefix`, on character lists. -/
def startsWith : List Char → List Char → Bool
  | _, [] => true
  | [], _ :: _ => false
  | c :: cs, p :: ps => c == p && startsWith cs ps

/-- The function `strings.Contains`, on character lists. -/
def containsChars : List Char → List Char → Bool
  | [], sub => sub.isEmpty
  | c :: cs, sub => startsWith (c :: cs) sub || containsChars cs sub

/-- The function `strings.Contains(s, substr)`. -/
def strContains (s substr : String) : Bool := containsChars s.data substr.data

/-- Splitting at a one-character separator: `n` is the number of cuts still
allowed and `cur` the piece being read, reversed. -/
def splitAux (sep : Char) : Nat → List Char → List Char → List (List Char)
  | _, cur, [] => [cur.reverse]
  | 0, cur, c :: cs => splitAux sep 0 (c :: cur) cs
  | n + 1, cur, c :: cs =>
    if c = sep then cur.reverse :: splitAux sep n [] cs
    else splitAux sep (n + 1) (c :: cur) cs

/-- The function `strings.Split(s, sep)` for a one-character `sep`. -/
def strSplit (s : String) (sep : Char) : List String :=
  (splitAux sep s.data.length [] s.data).map String.mk

/-- The function `strings.SplitN(s, sep, n)` for a one-character `sep` and `n > 0`. -/
def strSplitN (s : String) (sep : Char) (n : Nat) : List String :=
  (splitAux sep (n - 1) [] s.data).map String.mk

/-! ## Amazon resource names (`aws/arn`) -/

/-- The struct `arn.ARN`. -/
structure ARN where
  Partition : String
  Service : String
  Region : String
  AccountID : String
  Resource : String
  deriving DecidableEq, Repr

/-- The two failures of `arn.Parse`. -/
inductive ArnError
  | invalidPrefix
  | notEnoughSections
  deriving DecidableEq, Repr

/-- The function `arn.Parse` of the SDK: the text must start with `arn:` and
split at colons into six sections, the last of which keeps its colons. -/
def arnParse (arn : String) : Except ArnError ARN :=
  if !startsWith arn.data "arn:".data then .error .invalidPrefix
  else
    match strSplitN arn ':' 6 with
    | [_, p, s, r, a, res] => .ok ⟨p, s, r, a, res⟩
    | _ => .error .notEnoughSections

/-! ## Errors -/

/-- An error returned by an AWS client call: one implementing `awserr.Error`
(with its code and its `Message()`), or any other error value. -/
inductive SvcError
  | aws (code message : String)
  | other (text : String)
  deriving DecidableEq, Repr

/-- The error values built by the provider, one constructor per `fmt.Errorf`
site, the wrapped cause kept as an argument. -/
inductive Error
  /-- An error of a collaborator, as the cause of a wrapping error. -/
  | svc (e : SvcError)
  /-- The message "unsupported record type %s". -/
  | unsupportedRecordType (recordType : String)
  /-- The message "domain is required". -/
  | domainRequired
  /-- The message "target is required". -/
  | targetRequired
  /-- The message "failed to find hosted zone for record: %v". -/
  | findHostedZone (cause : Error)
  /-- The message "failed to get hosted zone for load balancer target %q: %v". -/
  | lbTargetHostedZone (target : String) (cause : Error)
  /-- The message "failed to update alias in zone %s: %v". -/
  | updateAliasInZone (zoneID : String) (cause : Error)
  /-- The message "failed to parse hostedzone ARN %q: %v". -/
  | parseHostedZoneARN (arn : String) (cause : ArnError)
  /-- The message "got unexpected resource ARN: %v". -/
  | unexpectedResourceARN (arn : ARN)
  /-- An aggregate of two errors made by `kerrors.NewAggregate`. -/
  | aggregate (first second : Error)
  /-- The message "failed to get tagged resources: %v". -/
  | getTaggedResources (cause : Error)
  /-- The message "no matching hosted zone found". -/
  | noMatchingHostedZone
  /-- The message "failed to describe classic load balancers: %v". -/
  | describeClassic (cause : SvcError)
  /-- The message "failed to describe network load balancers: %v". -/
  | describeNetwork (cause : SvcError)
  /-- The message "couldn't find hosted zone ID of ELB %s". -/
  | lbZoneNotFound (name : String)
  /-- The message "couldn't update DNS record in zone %s: %v". -/
  | updateRecord (zoneID : String) (cause : SvcError)
  /-- An error returned by `url.ParseRequestURI`. -/
  | parseRequestURI (msg : String)
  /-- The message "invalid endpoint url %s for service %s; only %s and %s are supported". -/
  | invalidEndpointURL (uri service : String)
  /-- The message "failed to validate service endpoint %s: %v". -/
  | validateEndpoint (service : String) (cause : Error)
  /-- The message "%s, %s and %s services must be configured when using custom endpoints". -/
  | servicesMustBeConfigured
  /-- The message "region is required". -/
  | regionRequired
  deriving DecidableEq, Repr

/-- The function `kerrors.NewAggregate` on a two-element slice: nil entries are
dropped, and no error at all is a nil aggregate. -/
def newAggregate : Option Error → Option Error → Option Error
  | none, none => none
  | some e, none => some e
  | none, some e => some e
  | some a, some b => some (.aggregate a b)

/-! ## Requests and collaborators -/

/-- The struct `route53.AliasTarget`. -/
structure AliasTarget where
  HostedZoneId : String
  DNSName : String
  EvaluateTargetHealth : Bool
  deriving DecidableEq, Repr

/-- The struct `route53.ResourceRecordSet` (field `Type` is `RType` here). -/
structure ResourceRecordSet where
  Name : String
  RType : String
  Alias : AliasTarget
  deriving DecidableEq, Repr

/-- The struct `route53.Change`. -/
structure Change where
  Action : String
  RecordSet : ResourceRecordSet
  deriving DecidableEq, Repr

/-- The struct `route53.ChangeResourceRecordSetsInput`, its `ChangeBatch`
flattened to the list of changes. -/
structure ChangeResourceRecordSetsInput where
  HostedZoneId : String
  Changes : List Change
  deriving DecidableEq, Repr

/-- A request sent to a collaborator. -/
inductive Event
  /-- The call `tags.GetResourcesPages` with its resource-type and tag filters. -/
  | getResourcesPages (resourceTypeFilters : List String) (tagFilters : Tags)
  /-- The call `elb.DescribeLoadBalancersPages` (classic load balancers). -/
  | describeLoadBalancers
  /-- The call `elbv2.DescribeLoadBalancersPages`. -/
  | describeLoadBalancersV2
  /-- The call `route53.ChangeResourceRecordSets`. -/
  | changeResourceRecordSets (input : ChangeResourceRecordSetsInput)
  deriving DecidableEq

/-- The answer of a paginated AWS listing: the pages it can deliver, and the
error of the request after the last of them, if that request fails. -/
structure Paged (α : Type) where
  pages : List (List α)
  err : Option SvcError

/-- The struct `resourcegroupstaggingapi.ResourceTagMapping` (the field read). -/
structure ResourceTagMapping where
  ResourceARN : Option String
  deriving DecidableEq, Repr

/-- The struct `elb.LoadBalancerDescription` (the fields read). -/
structure LoadBalancerDescription where
  DNSName : Option String
  CanonicalHostedZoneNameID : Option String
  deriving DecidableEq, Repr

/-- The struct `elbv2.LoadBalancer` (the fields read). -/
structure LoadBalancer where
  DNSName : Option String
  CanonicalHostedZoneId : Option String
  deriving DecidableEq, Repr

/-- The four AWS clients of a `Provider`, as the answers they give during one call. -/
structure Clients where
  /-- The tagging inventory, per tag mapping used as filter. -/
  tags : Tags → Paged ResourceTagMapping
  /-- The classic load-balancer inventory. -/
  elb : Paged LoadBalancerDescription
  /-- The second-generation load-balancer inventory. -/
  elbv2 : Paged LoadBalancer
  /-- The record service: nil, or the error it returns for a change batch. -/
  route53 : ChangeResourceRecordSetsInput → Option SvcError

/-- The SDK's pagination loop `XxxPages(input, fn)`: the pages are handed to
`fn` one by one until it returns false; the request error is returned only if
it is reached.  The variables captured by the callback are the state `σ`. -/
def eachPage {α σ : Type} (fn : σ → List α → σ × Bool) :
    σ → List (List α) → Option SvcError → σ × Option SvcError
  | st, [], err => (st, err)
  | st, page :: rest, err =>
    match fn st page with
    | (st1, true) => eachPage fn st1 rest err
    | (st1, false) => (st1, none)

/-! ## The provider -/

/-- The cached state of `Provider` (the fields below `lock`). -/
structure Provider where
  idsToTags : GoMap Tags
  lbZones : GoMap String
  deriving DecidableEq

/-- The order in which one `range` loop visits the entries of `idsToTags`:
unspecified in Go, so any rearrangement of the entries. -/
structure RangeOrder where
  visit : List (String × Tags) → List (String × Tags)
  perm : ∀ l, (visit l).Perm l

/-- The type `configv1.DNSZone`. -/
structure DNSZone where
  ID : String
  Tags : Tags
  deriving DecidableEq

/-- The type `iov1.DNSRecordSpec`. -/
structure DNSRecordSpec where
  DNSName : String
  Targets : List String
  RecordType : String
  deriving DecidableEq, Repr

/-- The type `iov1.DNSRecord` (its spec). -/
structure DNSRecord where
  Spec : DNSRecordSpec
  deriving DecidableEq, Repr

/-- The constant `iov1.CNAMERecordType`. -/
def CNAMERecordType : String := "CNAME"

/-- The constant `upsertAction`. -/
def upsertAction : String := "UPSERT"

/-- The constant `deleteAction`. -/
def deleteAction : String := "DELETE"

/-- What a resolver call leaves behind: its return value, the provider's
caches afterwards, and the requests it sent, in order. -/
structure Outcome (α : Type) where
  ret : Except Error α
  provider : Provider
  events : List Event

/-- The pagination callback `f` of `getZoneID`; the captured variables are
`id` and `innerError`.  The first resource of a page ends the pagination. -/
def zoneFn (st : String × Option Error) (page : List ResourceTagMapping) :
    (String × Option Error) × Bool :=
  match page with
  | [] => (st, true)
  | zone :: _ =>
    match arnParse (stringValue zone.ResourceARN) with
    | .error err => ((st.1, some (.parseHostedZoneARN (stringValue zone.ResourceARN) err)), false)
    | .ok zoneARN =>
      match strSplit zoneARN.Resource '/' with
      | [kind, zoneID] =>
        if kind != "hostedzone" then ((st.1, some (.unexpectedResourceARN zoneARN)), false)
        else ((zoneID, st.2), false)
      | _ => ((st.1, some (.unexpectedResourceARN zoneARN)), false)

/-- The method `Provider.getZoneID`. -/
def getZoneID (ρ : RangeOrder) (c : Clients) (m : Provider) (zoneConfig : DNSZone) :
    Outcome String :=
  if zoneConfig.ID.length > 0 then ⟨.ok zoneConfig.ID, m, []⟩
  else
    match (ρ.visit m.idsToTags.entries).find? (fun e => deepEqual e.2 zoneConfig.Tags) with
    | some e => ⟨.ok e.1, m, []⟩
    | none =>
      let query := Event.getResourcesPages ["route53:hostedzone"] zoneConfig.Tags
      let answer := c.tags zoneConfig.Tags
      match eachPage zoneFn ("", none) answer.pages answer.err with
      | ((id, innerError), outerError) =>
        match newAggregate innerError (outerError.map Error.svc) with
        | some err => ⟨.error (.getTaggedResources err), m, [query]⟩
        | none =>
          if id.length = 0 then ⟨.error .noMatchingHostedZone, m, [query]⟩
          else ⟨.ok id, { m with idsToTags := m.idsToTags.set id zoneConfig.Tags }, [query]⟩

/-- The pagination callback `elbFn` of `getLBHostedZone`; the captured variable is `id`. -/
def elbFn (name : String) (id : String) : List LoadBalancerDescription → String × Bool
  | [] => (id, true)
  | lb :: rest =>
    if stringValue lb.DNSName = name then (stringValue lb.CanonicalHostedZoneNameID, false)
    else elbFn name id rest

/-- The pagination callback `elbv2Fn` of `getLBHostedZone`; the captured variable is `id`. -/
def elbv2Fn (name : String) (id : String) : List LoadBalancer → String × Bool
  | [] => (id, true)
  | lb :: rest =>
    if stringValue lb.DNSName = name then (stringValue lb.CanonicalHostedZoneId, false)
    else elbv2Fn name id rest

/-- The method `Provider.getLBHostedZone`. -/
def getLBHostedZone (c : Clients) (m : Provider) (name : String) : Outcome String :=
  match m.lbZones.get? name with
  | some id => ⟨.ok id, m, []⟩
  | none =>
    match eachPage (elbFn name) "" c.elb.pages c.elb.err with
    | (_, some err) => ⟨.error (.describeClassic err), m, [.describeLoadBalancers]⟩
    | (id, none) =>
      if id.length = 0 then
        match eachPage (elbv2Fn name) id c.elbv2.pages c.elbv2.err with
        | (_, some err) =>
          ⟨.error (.describeNetwork err), m, [.describeLoadBalancers, .describeLoadBalancersV2]⟩
        | (id2, none) =>
          if id2.length = 0 then
            ⟨.error (.lbZoneNotFound name), m, [.describeLoadBalancers, .describeLoadBalancersV2]⟩
          else
            ⟨.ok id2, { m with lbZones := m.lbZones.set name id2 },
              [.describeLoadBalancers, .describeLoadBalancersV2]⟩
      else ⟨.ok id, { m with lbZones := m.lbZones.set name id }, [.describeLoadBalancers]⟩

/-- The change batch that `updateAlias` submits. -/
def aliasInput (domain zoneID target targetHostedZoneID action : String) :
    ChangeResourceRecordSetsInput :=
  { HostedZoneId := zoneID
    Changes := [{ Action := action
                  RecordSet := { Name := domain
                                 RType := "A"
                                 Alias := { HostedZoneId := targetHostedZoneID
                                            DNSName := target
                                            EvaluateTargetHealth := false } } }] }

/-- The method `Provider.updateAlias`: the returned error (nil is `none`) and the
request sent. -/
def updateAlias (c : Clients) (domain zoneID target targetHostedZoneID action : String) :
    Option Error × List Event :=
  let input := aliasInput domain zoneID target targetHostedZoneID action
  match c.route53 input with
  | some err =>
    if action = deleteAction then
      match err with
      | .aws _ message =>
        if strContains message "not found" then (none, [.changeResourceRecordSets input])
        else (some (.updateRecord zoneID err), [.changeResourceRecordSets input])
      | .other _ => (some (.updateRecord zoneID err), [.changeResourceRecordSets input])
    else (some (.updateRecord zoneID err), [.changeResourceRecordSets input])
  | none => (none, [.changeResourceRecordSets input])

/-- How a call of `change` ends: it returns its error value (nil is `none`), or
the goroutine panics. -/
inductive Exit
  | returned (err : Option Error)
  | panicked (reason : String)
  deriving DecidableEq

/-- What a call of `change` leaves behind. -/
structure ChangeOutcome where
  exit : Exit
  provider : Provider
  events : List Event

/-- The method `Provider.change`.  The index expression `record.Spec.Targets[0]`
is evaluated right after the record-type check, before the domain is looked at. -/
def change (ρ : RangeOrder) (c : Clients) (m : Provider) (record : DNSRecord) (zone : DNSZone)
    (action : String) : ChangeOutcome :=
  if record.Spec.RecordType != CNAMERecordType then
    ⟨.returned (some (.unsupportedRecordType record.Spec.RecordType)), m, []⟩
  else
    match record.Spec.Targets with
    | [] => ⟨.panicked "runtime error: index out of range [0] with length 0", m, []⟩
    | target :: _ =>
      let domain := record.Spec.DNSName
      if domain.length = 0 then ⟨.returned (some .domainRequired), m, []⟩
      else if target.length = 0 then ⟨.returned (some .targetRequired), m, []⟩
      else
        let z := getZoneID ρ c m zone
        match z.ret with
        | .error err => ⟨.returned (some (.findHostedZone err)), z.provider, z.events⟩
        | .ok zoneID =>
          let lb := getLBHostedZone c z.provider target
          match lb.ret with
          | .error err =>
            ⟨.returned (some (.lbTargetHostedZone target err)), lb.provider, z.events ++ lb.events⟩
          | .ok targetHostedZoneID =>
            match updateAlias c domain zoneID target targetHostedZoneID action with
            | (some err, evs) =>
              ⟨.returned (some (.updateAliasInZone zoneID err)), lb.provider,
                z.events ++ lb.events ++ evs⟩
            | (none, evs) => ⟨.returned none, lb.provider, z.events ++ lb.events ++ evs⟩

/-- The method `Provider.Ensure`. -/
def Ensure (ρ : RangeOrder) (c : Clients) (m : Provider) (record : DNSRecord) (zone : DNSZone) :
    ChangeOutcome :=
  change ρ c m record zone upsertAction

/-- The method `Provider.Delete`. -/
def Delete (ρ : RangeOrder) (c : Clients) (m : Provider) (record : DNSRecord) (zone : DNSZone) :
    ChangeOutcome :=
  change ρ c m record zone deleteAction

/-! ## Sequences of calls -/

/-- One call on the provider, with the iteration order and the collaborators'
answers that it meets. -/
inductive Op
  | getZoneID (ρ : RangeOrder) (c : Clients) (zone : DNSZone)
  | getLBHostedZone (c : Clients) (name : String)
  | ensure (ρ : RangeOrder) (c : Clients) (record : DNSRecord) (zone : DNSZone)
  | delete (ρ : RangeOrder) (c : Clients) (record : DNSRecord) (zone : DNSZone)

/-- The provider's caches after one call. -/
def Op.run (m : Provider) : Op → Provider
  | .getZoneID ρ c zone => (AwsDns.getZoneID ρ c m zone).provider
  | .getLBHostedZone c name => (AwsDns.getLBHostedZone c m name).provider
  | .ensure ρ c record zone => (Ensure ρ c m record zone).provider
  | .delete ρ c record zone => (Delete ρ c m record zone).provider

/-- The provider's caches after a sequence of calls. -/
def runOps (m : Provider) (ops : List Op) : Provider :=
  ops.foldl Op.run m

/-- Whether `change` gets past its checks of the record (and its index
expression) and goes on to resolve the zone. -/
def passesValidation (record : DNSRecord) : Bool :=
  record.Spec.RecordType == CNAMERecordType &&
    match record.Spec.Targets with
    | [] => false
    | target :: _ => record.Spec.DNSName != "" && target != ""

/-- The arguments with which a call reaches `getZoneID`, if it does. -/
def Op.zoneCall : Op → Option (RangeOrder × Clients × DNSZone)
  | .getZoneID ρ c zone => some (ρ, c, zone)
  | .getLBHostedZone _ _ => none
  | .ensure ρ c record zone => if passesValidation record then some (ρ, c, zone) else none
  | .delete ρ c record zone => if passesValidation record then some (ρ, c, zone) else none

/-- The zone ID that a call on caches `m` resolves by a successful search of the
tag inventory (the case in which `getZoneID` writes `idsToTags`), if any. -/
def Op.searchedZone (m : Provider) (op : Op) : Option String :=
  match op.zoneCall with
  | none => none
  | some (ρ, c, zone) =>
    match (AwsDns.getZoneID ρ c m zone).ret with
    | .ok id => if (AwsDns.getZoneID ρ c m zone).events.isEmpty then none else some id
    | .error _ => none

/-- The zone IDs resolved by inventory search in the course of a sequence of calls. -/
def searchedZones : Provider → List Op → List String
  | _, [] => []
  | m, op :: ops => (op.searchedZone m).toList ++ searchedZones (op.run m) ops

/-! ## Client configuration -/

/-- The constant `httpsProtocol`. -/
def httpsProtocol : String := "https"

/-- The constant `route53.ServiceName` of the SDK. -/
def Route53Service : String := "route53"

/-- The constant `elb.ServiceName` of the SDK. -/
def ELBService : String := "elasticloadbalancing"

/-- The constant `resourcegroupstaggingapi.ServiceName` of the SDK. -/
def TaggingService : String := "tagging"

/-- The constant `AWSBaseDomain`. -/
def AWSBaseDomain : String := "amazonaws.com"

/-- The constant `AWSChinaBaseDomain`. -/
def AWSChinaBaseDomain : String := "amazonaws.com.cn"

/-- The constant `endpoints.UsEast1RegionID` of the SDK. -/
def UsEast1RegionID : String := "us-east-1"

/-- The constant `endpoints.CnNorth1RegionID` of the SDK. -/
def CnNorth1RegionID : String := "cn-north-1"

/-- The constant `endpoints.CnNorthwest1RegionID` of the SDK. -/
def CnNorthwest1RegionID : String := "cn-northwest-1"

/-- The constant `route53NonRegionalizedEndpoint`. -/
def route53NonRegionalizedEndpoint : String :=
  httpsProtocol ++ "://" ++ Route53Service ++ "." ++ AWSBaseDomain

/-- The constant `route53UsEastEndpoint`. -/
def route53UsEastEndpoint : String :=
  httpsProtocol ++ "://" ++ Route53Service ++ "." ++ UsEast1RegionID ++ "." ++ AWSBaseDomain

/-- The constant `route53ChinaEndpoint`. -/
def route53ChinaEndpoint : String :=
  httpsProtocol ++ "://" ++ Route53Service ++ "." ++ AWSChinaBaseDomain

/-- The constant `taggingNonRegionalizedEndpoint`. -/
def taggingNonRegionalizedEndpoint : String :=
  httpsProtocol ++ "://" ++ TaggingService ++ "." ++ AWSBaseDomain

/-- The constant `taggingUsEastEndpoint`. -/
def taggingUsEastEndpoint : String :=
  httpsProtocol ++ "://" ++ TaggingService ++ "." ++ UsEast1RegionID ++ "." ++ AWSBaseDomain

/-- The struct `ServiceEndpoint`. -/
structure ServiceEndpoint where
  Name : String
  URL : String
  deriving DecidableEq, Repr

/-- The struct `Config`. -/
structure Config where
  AccessID : String
  AccessKey : String
  Region : String
  ServiceEndpoints : List ServiceEndpoint
  deriving DecidableEq, Repr

/-- The struct `aws.Config` (the two fields set here); `none` is a nil pointer. -/
structure AwsConfig where
  Region : Option String
  Endpoint : Option String
  deriving DecidableEq, Repr

/-- The function `aws.NewConfig`. -/
def NewConfig : AwsConfig := ⟨none, none⟩

/-- The method `aws.Config.WithRegion`. -/
def AwsConfig.WithRegion (cfg : AwsConfig) (region : String) : AwsConfig :=
  { cfg with Region := some region }

/-- The method `aws.Config.WithEndpoint`. -/
def AwsConfig.WithEndpoint (cfg : AwsConfig) (endpoint : String) : AwsConfig :=
  { cfg with Endpoint := some endpoint }

/-- The struct `url.URL` (the fields read). -/
structure URL where
  Scheme : String
  Host : String
  deriving DecidableEq, Repr

/-- The standard library's `url.ParseRequestURI`, an argument of the functions
that call it: the parsed URL or the message of the error. -/
abbrev UriParser := String → Except String URL

/-- The function `ValidateServiceEndpoint`; `none` is the nil error. -/
def ValidateServiceEndpoint (parse : UriParser) (uri : String) : Option Error :=
  match parse uri with
  | .error msg => some (.parseRequestURI msg)
  | .ok u =>
    if strContains u.Host Route53Service
        && (uri != route53NonRegionalizedEndpoint && uri != route53UsEastEndpoint) then
      some (.invalidEndpointURL uri Route53Service)
    else if strContains u.Host TaggingService
        && (uri != taggingNonRegionalizedEndpoint && uri != taggingUsEastEndpoint) then
      some (.invalidEndpointURL uri TaggingService)
    else none

/-- The variables of the endpoint loop of `getAwsConfig`. -/
structure EndpointScan where
  route53Found : Bool
  elbFound : Bool
  tagFound : Bool
  awsCfg : AwsConfig
  deriving DecidableEq, Repr

/-- The loop `for _, ep := range c.ServiceEndpoints` of `getAwsConfig`.  The
`break` of the first case leaves the `switch`, not the loop.  No case reads
the requested service. -/
def scanEndpoints (parse : UriParser) : EndpointScan → List ServiceEndpoint →
    Except Error EndpointScan
  | st, [] => .ok st
  | st, ep :: rest =>
    if st.route53Found && st.elbFound && st.tagFound then scanEndpoints parse st rest
    else if ep.Name = Route53Service then
      match ValidateServiceEndpoint parse ep.URL with
      | some err => .error (.validateEndpoint Route53Service err)
      | none =>
        scanEndpoints parse
          { st with route53Found := true, awsCfg := st.awsCfg.WithEndpoint ep.URL } rest
    else if ep.Name = ELBService then
      match ValidateServiceEndpoint parse ep.URL with
      | some err => .error (.validateEndpoint ELBService err)
      | none =>
        scanEndpoints parse
          { st with elbFound := true, awsCfg := st.awsCfg.WithEndpoint ep.URL } rest
    else if ep.Name = TaggingService then
      match ValidateServiceEndpoint parse ep.URL with
      | some err => .error (.validateEndpoint TaggingService err)
      | none =>
        scanEndpoints parse
          { st with tagFound := true, awsCfg := st.awsCfg.WithEndpoint ep.URL } rest
    else scanEndpoints parse st rest

/-- The method `Config.getAwsConfig`. -/
def getAwsConfig (parse : UriParser) (c : Config) (region service : String) :
    Except Error AwsConfig :=
  if region = CnNorth1RegionID ∨ region = CnNorthwest1RegionID then
    let cfg1 := if service = TaggingService then NewConfig.WithRegion CnNorthwest1RegionID
      else NewConfig
    let cfg2 := if service = Route53Service then
        (cfg1.WithRegion CnNorthwest1RegionID).WithEndpoint route53ChinaEndpoint
      else cfg1
    .ok cfg2
  else if c.ServiceEndpoints.length > 0 then
    match scanEndpoints parse ⟨false, false, false, NewConfig⟩ c.ServiceEndpoints with
    | .error err => .error err
    | .ok st =>
      if !st.route53Found && !st.elbFound && !st.tagFound then .error .servicesMustBeConfigured
      else .ok st.awsCfg
  else if service = TaggingService then .ok (NewConfig.WithRegion UsEast1RegionID)
  else if service = Route53Service then .ok (NewConfig.WithRegion UsEast1RegionID)
  else .ok (NewConfig.WithRegion region)

/-- The function `setRegion`; `sessRegion` is `sess.Config.Region`. -/
def setRegion (cfg : Config) (sessRegion : Option String) : Except Error String :=
  let r := if (stringValue sessRegion).length > 0 then stringValue sessRegion else cfg.Region
  if r.length = 0 then .error .regionRequired else .ok r

/-- The function `NewProvider`, the session taken as created: the three client
configurations must be obtainable, and both caches start empty. -/
def NewProvider (parse : UriParser) (sessRegion : Option String) (config : Config) :
    Except Error Provider :=
  match setRegion config sessRegion with
  | .error err => .error err
  | .ok region =>
    match getAwsConfig parse config region ELBService with
    | .error err => .error err
    | .ok _ =>
      match getAwsConfig parse config region Route53Service with
      | .error err => .error err
      | .ok _ =>
        match getAwsConfig parse config region TaggingService with
        | .error err => .error err
        | .ok _ => .ok { idsToTags := GoMap.empty, lbZones := GoMap.empty }

/-! ## Vocabulary of the statements -/

/-- Whether a request is a change batch submitted to the record service. -/
def Event.isChangeBatch : Event → Bool
  | .changeResourceRecordSets _ => true
  | _ => false

/-- The change batches among the requests of a call, in order. -/
def changeBatches (events : List Event) : List ChangeResourceRecordSetsInput :=
  events.filterMap fun
    | .changeResourceRecordSets input => some input
    | _ => none

/-- Whether a request is a query of the tag inventory. -/
def Event.isTagQuery : Event → Bool
  | .getResourcesPages _ _ => true
  | _ => false

/-! ## Sample inputs -/

/-- The iteration order that visits the entries as they are stored. -/
def storedOrder : RangeOrder := ⟨fun l => l, fun l => List.Perm.refl l⟩

/-- The iteration order that visits the entries last to first. -/
def reversedOrder : RangeOrder := ⟨List.reverse, List.reverse_perm⟩

/-- The caches of a provider just made by `NewProvider`. -/
def freshProvider : Provider := { idsToTags := GoMap.empty, lbZones := GoMap.empty }

/-- A tag mapping with one tag. -/
def oneTag (k v : String) : Tags := some ⟨[(k, v)], by simp⟩

/-- The zone spec of the demo cluster: no ID, one tag. -/
def demoZone : DNSZone := { ID := "", Tags := oneTag "kubernetes.io/cluster" "demo" }

/-- The record of the demo cluster. -/
def demoRecord : DNSRecord :=
  ⟨{ DNSName := "apps.demo.example.com", Targets := ["lb-123.example.com"], RecordType := "CNAME" }⟩

/-- Collaborators of the demo cluster: the tag inventory knows zone `Z1`, the
classic inventory knows the load balancer in zone `ZLB1`, and the record
service accepts every batch. -/
def demoClients : Clients :=
  { tags := fun _ => ⟨[[⟨some "arn:aws:route53:::hostedzone/Z1"⟩]], none⟩
    elb := ⟨[[⟨some "lb-123.example.com", some "ZLB1"⟩]], none⟩
    elbv2 := ⟨[], none⟩
    route53 := fun _ => none }

/-- A tag mapping with two tags (the keys "a" and "b"). -/
def tagsAB (va vb : String) : Tags := some ⟨[("a", va), ("b", vb)], by simp⟩

/-- Caches in which zone `Z1` was resolved from the nil tag mapping. -/
def nilTagProvider : Provider :=
  { idsToTags := ⟨[("Z1", none)], by simp⟩, lbZones := GoMap.empty }

/-- Caches holding `Z1` for the tags `{a:1}` and `Z2` for the tags `{a:1, b:2}`. -/
def twoZoneProvider : Provider :=
  { idsToTags := ⟨[("Z1", oneTag "a" "1"), ("Z2", tagsAB "1" "2")], by decide⟩
    lbZones := GoMap.empty }

/-- Collaborators that know nothing: empty inventories; the record service
accepts every batch. -/
def emptyClients : Clients :=
  { tags := fun _ => ⟨[[]], none⟩
    elb := ⟨[[]], none⟩
    elbv2 := ⟨[[]], none⟩
    route53 := fun _ => none }

/-- Collaborators whose tag inventory knows zone `Z2` only. -/
def otherClients : Clients :=
  { tags := fun _ => ⟨[[], [⟨some "arn:aws:route53:::hostedzone/Z2"⟩]], none⟩
    elb := ⟨[[]], none⟩
    elbv2 := ⟨[[⟨some "lb-123.example.com", some "ZLB2"⟩]], none⟩
    route53 := fun _ => none }

/-- Collaborators whose two load-balancer inventories both know the load
balancer, the classic one in zone `ZLB1` (second page) and the newer one in `ZLB2`. -/
def bothClients : Clients :=
  { tags := fun _ => ⟨[[]], none⟩
    elb := ⟨[[⟨some "other.example.com", some "ZLB0"⟩],
             [⟨some "lb-123.example.com", some "ZLB1"⟩]], none⟩
    elbv2 := ⟨[[⟨some "lb-123.example.com", some "ZLB2"⟩]], none⟩
    route53 := fun _ => none }

/-- Collaborators whose two load-balancer inventories both know the load
balancer, the classic entry carrying no hosted-zone ID (a nil pointer). -/
def blankClassicClients : Clients :=
  { tags := fun _ => ⟨[[]], none⟩
    elb := ⟨[[⟨some "lb-123.example.com", none⟩]], none⟩
    elbv2 := ⟨[[⟨some "lb-123.example.com", some "ZLB2"⟩]], none⟩
    route53 := fun _ => none }

/-- A stand-in for `url.ParseRequestURI` on endpoint URLs: it accepts the
texts `https://host` and takes everything after the scheme as the host. -/
def hostOnlyParser : UriParser := fun uri =>
  if startsWith uri.data "https://".data then .ok ⟨"https", String.mk (uri.data.drop 8)⟩
  else .error "invalid URI for request"

/-- Collaborators whose record service rejects every batch because the record
is absent, in the words Route 53 uses. -/
def absentRecordClients : Clients :=
  { tags := fun _ => ⟨[[]], none⟩
    elb := ⟨[[]], none⟩
    elbv2 := ⟨[[]], none⟩
    route53 := fun _ => some (.aws "InvalidChangeBatch"
      "Tried to delete resource record set but it was not found") }

/-- A configuration with custom endpoints for Route 53 and for the load balancers. -/
def twoEndpointConfig : Config :=
  { AccessID := "id", AccessKey := "key", Region := "us-east-2"
    ServiceEndpoints :=
      [⟨"route53", "https://route53.amazonaws.com"⟩,
       ⟨"elasticloadbalancing", "https://elasticloadbalancing.us-east-2.amazonaws.com"⟩] }

/-- A configuration without custom endpoints. -/
def plainConfig : Config :=
  { AccessID := "id", AccessKey := "key", Region := "us-east-2", ServiceEndpoints := [] }

/-- Collaborators whose tag inventory delivers an empty page and then two
hosted zones, the first with an ARN that ends right after `hostedzone/`. -/
def blankZoneClients : Clients :=
  { tags := fun _ => ⟨[[], [⟨some "arn:aws:route53:::hostedzone/"⟩,
                           ⟨some "arn:aws:route53:::hostedzone/Z9"⟩]], none⟩
    elb := ⟨[[]], none⟩
    elbv2 := ⟨[[]], none⟩
    route53 := fun _ => none }

/-- Collaborators whose tag inventory delivers an empty page, then a page with
the zones `Z7` and `Z8`, then a page with a malformed ARN, and whose request
for a further page fails. -/
def pagedZoneClients : Clients :=
  { tags := fun _ => ⟨[[], [⟨some "arn:aws:route53:::hostedzone/Z7"⟩,
                           ⟨some "arn:aws:route53:::hostedzone/Z8"⟩],
                       [⟨some "not-an-arn"⟩]], some (.other "throttled")⟩
    elb := ⟨[[]], none⟩
    elbv2 := ⟨[[]], none⟩
    route53 := fun _ => none }

/-! ## The record service as a store -/

/-- The key of a record in the record service: zone, name and type. -/
abbrev RecordKey := String × String × String

/-- The state of the record service as the idempotence property reads it: a map
from (zone, name, type) to the alias target of the record, if there is one. -/
abbrev RecordStore := RecordKey → Option AliasTarget

/-- One change applied to the store: UPSERT writes the record over whatever
is there, DELETE removes it, and any other action leaves the store alone. -/
def applyChange (zoneID : String) (store : RecordStore) (ch : Change) : RecordStore :=
  if ch.Action = upsertAction then
    Function.update store (zoneID, ch.RecordSet.Name, ch.RecordSet.RType) (some ch.RecordSet.Alias)
  else if ch.Action = deleteAction then
    Function.update store (zoneID, ch.RecordSet.Name, ch.RecordSet.RType) none
  else store

/-- An accepted change batch applied to the store. -/
def applyBatch (store : RecordStore) (input : ChangeResourceRecordSetsInput) : RecordStore :=
  input.Changes.foldl (applyChange input.HostedZoneId) store

/-- The store after the change batches of a call that the record service accepted. -/
def applyEvents (store : RecordStore) (events : List Event) : RecordStore :=
  (changeBatches events).foldl applyBatch store

/-! ## URI validation (`pkg/util/network.go`) -/

/-- The constant `SchemeHTTPS`. -/
def SchemeHTTPS : String := "https"

/-- Whether a byte is a decimal digit (`'0' <= b && b <= '9'`). -/
def isDigitChar (c : Char) : Bool := 48 ≤ c.toNat && c.toNat ≤ 57

/-- The text after the last colon of a text that has a colon
(`strings.LastIndexByte(host, ':')`). -/
def afterLastColon : List Char → Option (List Char)
  | [] => none
  | c :: cs =>
    match afterLastColon cs with
    | some port => some port
    | none => if c = ':' then some cs else none

/-- The method `URL.Port` of the standard library: what follows the last colon
of `Host` when that is made of digits only, and the empty string otherwise. -/
def URL.Port (u : URL) : String :=
  match afterLastColon u.Host.data with
  | some port => if port.all isDigitChar then String.mk port else ""
  | none => ""

/-- The digit loop `n = n*10 + int(ch)` of `strconv`, started at `n`: the value
read, or nothing at a byte that is not a digit. -/
def digitsValueFrom (n : Nat) : List Char → Option Nat
  | [] => some n
  | c :: cs => if isDigitChar c then digitsValueFrom (n * 10 + (c.toNat - 48)) cs else none

/-- The two failures of `strconv.Atoi`. -/
inductive AtoiError
  | invalidSyntax
  | outOfRange
  deriving DecidableEq, Repr

/-- The function `strconv.Atoi` for a 64-bit `int`: an optional sign, then at
least one digit and digits only, and a value that fits the type. -/
def atoi (s : String) : Except AtoiError Int :=
  match s.data with
  | [] => .error .invalidSyntax
  | c :: cs =>
    let negative := c = '-'
    let digits := if c = '-' ∨ c = '+' then cs else c :: cs
    if digits.isEmpty then .error .invalidSyntax
    else
      match digitsValueFrom 0 digits with
      | none => .error .invalidSyntax
      | some n =>
        if negative then
          if n ≤ 2 ^ 63 then .ok (-(n : Int)) else .error .outOfRange
        else if n < 2 ^ 63 then .ok (n : Int) else .error .outOfRange

/-- The error values of the URI validation, one constructor per `fmt.Errorf` site. -/
inductive UriError
  /-- An error returned by `url.ParseRequestURI`. -/
  | parseRequestURI (msg : String)
  /-- The message "%s scheme required but not present in uri %s". -/
  | schemeRequired (uri : String)
  /-- The message "failed converting port to integer for ValidateURI %q: %v". -/
  | portConversion (uri : String) (cause : AtoiError)
  /-- The message "failed to validate port for URL %q: %v". -/
  | portValidation (uri : String) (cause : UriError)
  /-- The message "invalid port number: %d". -/
  | invalidPortNumber (port : Int)
  deriving DecidableEq, Repr

/-- The function `validation.IsValidPortNum` of the Kubernetes library: no
complaint (a nil slice) exactly for the ports 1 to 65535. -/
def IsValidPortNum (port : Int) : List String :=
  if 1 ≤ port ∧ port ≤ 65535 then [] else ["must be between 1 and 65535, inclusive"]

/-- The function `ValidatePort`; `none` is the nil error. -/
def ValidatePort (port : Int) : Option UriError :=
  if IsValidPortNum port ≠ [] then some (.invalidPortNumber port) else none

/-- The function `ValidateURI`; `none` is the nil error. -/
def ValidateURI (parse : UriParser) (uri : String) (requireHTTPS : Bool) : Option UriError :=
  match parse uri with
  | .error msg => some (.parseRequestURI msg)
  | .ok parsed =>
    if requireHTTPS && parsed.Scheme != SchemeHTTPS then some (.schemeRequired uri)
    else if parsed.Port.length != 0 then
      match atoi parsed.Port with
      | .error err => some (.portConversion uri err)
      | .ok intPort =>
        match ValidatePort intPort with
        | some err => some (.portValidation uri err)
        | none => none
    else none

/-- The scheme and the rest of a text of the form `scheme://rest`. -/
def splitScheme : List Char → Option (List Char × List Char)
  | [] => none
  | c :: cs =>
    if startsWith (c :: cs) "://".data then some ([], cs.drop 2)
    else (splitScheme cs).map fun p => (c :: p.1, p.2)

/-- A stand-in for `url.ParseRequestURI` on the two simplest shapes it accepts:
an absolute URI `scheme://host[:port][/path]`, whose host runs up to the first
slash, and an absolute path, which has neither scheme nor host.  Anything else
is refused. -/
def simpleParser : UriParser := fun uri =>
  match splitScheme uri.data with
  | some (scheme, rest) => .ok ⟨String.mk scheme, String.mk (rest.takeWhile (· != '/'))⟩
  | none =>
    if startsWith uri.data "/".data then .ok ⟨"", ""⟩ else .error "invalid URI for request"

/-! # Properties -/

/-! ## Validation in `change` -/

/-- C1 (defect of the code): a CNAME record with zero targets does not yield the
"target is required" error.  `change` evaluates `record.Spec.Targets[0]` before
any check of the domain or target, so for every domain, zone, action, cache state
and collaborators the call panics with an index out of range; it sends no
request and leaves the caches as they were. -/
theorem C1_change_zero_targets_panics (ρ : RangeOrder) (c : Clients) (m : Provider)
    (domain : String) (zone : DNSZone) (action : String) :
    (change ρ c m ⟨⟨domain, [], CNAMERecordType⟩⟩ zone action).exit
        = .panicked "runtime error: index out of range [0] with length 0"
      ∧ (change ρ c m ⟨⟨domain, [], CNAMERecordType⟩⟩ zone action).exit
        ≠ .returned (some .targetRequired)
      ∧ (change ρ c m ⟨⟨domain, [], CNAMERecordType⟩⟩ zone action).events = []
      ∧ (change ρ c m ⟨⟨domain, [], CNAMERecordType⟩⟩ zone action).provider = m := by
  simp [change, CNAMERecordType]

theorem length_eq_zero_iff (s : String) : s.length = 0 ↔ s = "" := by
  cases s with
  | mk data => simp [String.length, String.ext_iff]

/-- The checks of `change` on a record with at least one target, in order: a
record type other than CNAME, then an empty domain, then an empty first target;
each is reported before any request is sent or any cache is touched. -/
theorem change_rejects_malformed (ρ : RangeOrder) (c : Clients) (m : Provider)
    (record : DNSRecord) (zone : DNSZone) (action target : String) (rest : List String)
    (hT : record.Spec.Targets = target :: rest) :
    (record.Spec.RecordType ≠ CNAMERecordType →
        change ρ c m record zone action
          = ⟨.returned (some (.unsupportedRecordType record.Spec.RecordType)), m, []⟩)
    ∧ (record.Spec.RecordType = CNAMERecordType → record.Spec.DNSName = "" →
        change ρ c m record zone action = ⟨.returned (some .domainRequired), m, []⟩)
    ∧ (record.Spec.RecordType = CNAMERecordType → record.Spec.DNSName ≠ "" → target = "" →
        change ρ c m record zone action = ⟨.returned (some .targetRequired), m, []⟩) := by
  refine ⟨fun ht => ?_, fun ht hd => ?_, fun ht hd hl => ?_⟩
  · simp [change, ht]
  · simp [change, ht, hT, hd]
  · have hd2 : ¬ record.Spec.DNSName.length = 0 := fun h0 => hd ((length_eq_zero_iff _).1 h0)
    simp [change, ht, hT, hd2, hl]

theorem changeBatches_getZoneID (ρ : RangeOrder) (c : Clients) (m : Provider) (zone : DNSZone) :
    changeBatches (getZoneID ρ c m zone).events = [] := by
  simp only [getZoneID]
  repeat' split
  all_goals rfl

theorem changeBatches_getLBHostedZone (c : Clients) (m : Provider) (name : String) :
    changeBatches (getLBHostedZone c m name).events = [] := by
  unfold getLBHostedZone
  repeat' split
  all_goals rfl

theorem changeBatches_append (a b : List Event) :
    changeBatches (a ++ b) = changeBatches a ++ changeBatches b := by
  simp [changeBatches, List.filterMap_append]

theorem updateAlias_events (c : Clients) (domain zoneID target targetHostedZoneID action : String) :
    (updateAlias c domain zoneID target targetHostedZoneID action).2
      = [.changeResourceRecordSets (aliasInput domain zoneID target targetHostedZoneID action)] := by
  unfold updateAlias
  dsimp only
  repeat' split
  all_goals rfl

/-- C3: `updateAlias` returns no error exactly when the record service accepted
the batch, or the action is DELETE and the service's error is an `awserr.Error`
whose message contains "not found"; every other service error is returned,
wrapped with the zone, whatever the action. -/
theorem C3_updateAlias_no_error_iff (c : Clients)
    (domain zoneID target targetHostedZoneID action : String) :
    ((updateAlias c domain zoneID target targetHostedZoneID action).1 = none ↔
      (c.route53 (aliasInput domain zoneID target targetHostedZoneID action) = none
        ∨ (action = deleteAction ∧ ∃ code message,
            c.route53 (aliasInput domain zoneID target targetHostedZoneID action)
              = some (.aws code message)
            ∧ strContains message "not found" = true)))
    ∧ (∀ err, c.route53 (aliasInput domain zoneID target targetHostedZoneID action) = some err →
        (updateAlias c domain zoneID target targetHostedZoneID action).1 = none
          ∨ (updateAlias c domain zoneID target targetHostedZoneID action).1
              = some (.updateRecord zoneID err))
    ∧ (∀ err, c.route53 (aliasInput domain zoneID target targetHostedZoneID upsertAction) = some err →
        (updateAlias c domain zoneID target targetHostedZoneID upsertAction).1
          = some (.updateRecord zoneID err)) := by
  refine ⟨?_, ?_, ?_⟩
  · unfold updateAlias
    dsimp only
    cases h : c.route53 (aliasInput domain zoneID target targetHostedZoneID action) with
    | none => simp
    | some err =>
      by_cases ha : action = deleteAction
      · cases err with
        | aws code message =>
          by_cases hm : strContains message "not found" = true
          · simp only [ha, hm, if_true, true_iff]
            exact Or.inr ⟨trivial, code, message, rfl, hm⟩
          · simp only [ha, hm, if_true]
            constructor
            · intro hc
              simp at hc
            · rintro (hc | ⟨-, code2, message2, heq, hm2⟩)
              · simp at hc
              · simp only [Option.some.injEq, SvcError.aws.injEq] at heq
                rw [heq.2] at hm
                exact absurd hm2 hm
        | other text => simp [ha]
      · simp [ha]
  · intro err h
    unfold updateAlias
    dsimp only
    rw [h]
    by_cases ha : action = deleteAction
    · cases err with
      | aws code message =>
        by_cases hm : strContains message "not found" = true <;> simp [ha, hm]
      | other text => simp [ha]
    · simp [ha]
  · intro err h
    unfold updateAlias
    dsimp only
    rw [h]
    simp [upsertAction, deleteAction]

/-- What `change` submits, for any action: a change batch exactly when the record
passes validation and both resolutions succeed, and then exactly the one alias
batch; on a failed resolution the wrapped error and no batch. -/
theorem change_submits_one_batch (ρ : RangeOrder) (c : Clients) (m : Provider)
    (record : DNSRecord) (zone : DNSZone) (action : String) :
    (changeBatches (change ρ c m record zone action).events ≠ [] ↔
      (record.Spec.RecordType = CNAMERecordType ∧ record.Spec.DNSName ≠ "" ∧
        ∃ target rest zoneID lbZoneID,
          record.Spec.Targets = target :: rest ∧ target ≠ "" ∧
          (getZoneID ρ c m zone).ret = .ok zoneID ∧
          (getLBHostedZone c (getZoneID ρ c m zone).provider target).ret = .ok lbZoneID))
    ∧ (∀ target rest zoneID lbZoneID,
        record.Spec.RecordType = CNAMERecordType → record.Spec.DNSName ≠ "" →
        record.Spec.Targets = target :: rest → target ≠ "" →
        (getZoneID ρ c m zone).ret = .ok zoneID →
        (getLBHostedZone c (getZoneID ρ c m zone).provider target).ret = .ok lbZoneID →
        changeBatches (change ρ c m record zone action).events
          = [{ HostedZoneId := zoneID
               Changes := [{ Action := action
                             RecordSet := { Name := record.Spec.DNSName
                                            RType := "A"
                                            Alias := { HostedZoneId := lbZoneID
                                                       DNSName := target
                                                       EvaluateTargetHealth := false } } }] }])
    ∧ (∀ target rest err,
        record.Spec.RecordType = CNAMERecordType → record.Spec.DNSName ≠ "" →
        record.Spec.Targets = target :: rest → target ≠ "" →
        (getZoneID ρ c m zone).ret = .error err →
        (change ρ c m record zone action).exit = .returned (some (.findHostedZone err))
          ∧ changeBatches (change ρ c m record zone action).events = [])
    ∧ (∀ target rest zoneID err,
        record.Spec.RecordType = CNAMERecordType → record.Spec.DNSName ≠ "" →
        record.Spec.Targets = target :: rest → target ≠ "" →
        (getZoneID ρ c m zone).ret = .ok zoneID →
        (getLBHostedZone c (getZoneID ρ c m zone).provider target).ret = .error err →
        (change ρ c m record zone action).exit
            = .returned (some (.lbTargetHostedZone target err))
          ∧ changeBatches (change ρ c m record zone action).events = []) := by
  have hz := changeBatches_getZoneID ρ c m zone
  by_cases ht : record.Spec.RecordType = CNAMERecordType
  swap
  · simp [change, ht, changeBatches]
  cases hT : record.Spec.Targets with
  | nil => simp [change, ht, hT, changeBatches]
  | cons target rest =>
    have hlb := changeBatches_getLBHostedZone c (getZoneID ρ c m zone).provider target
    by_cases hd : record.Spec.DNSName.length = 0
    · have hd2 := (length_eq_zero_iff _).1 hd
      simp [change, ht, hT, hd, hd2, changeBatches]
    have hd2 : record.Spec.DNSName ≠ "" := fun h => hd ((length_eq_zero_iff _).2 h)
    by_cases hl : target.length = 0
    · have hl2 := (length_eq_zero_iff _).1 hl
      simp only [change, ht, hT, hd, hl, hl2, changeBatches, bne_self_eq_false, Bool.false_eq_true,
        if_false, if_true, List.filterMap_nil, ne_eq, not_true_eq_false, false_iff, not_and,
        not_exists, List.cons.injEq, and_imp]
      refine ⟨?_, ?_, ?_, ?_⟩ <;> intros <;> subst_vars <;> simp_all
    have hl2 : target ≠ "" := fun h => hl ((length_eq_zero_iff _).2 h)
    cases hzr : (getZoneID ρ c m zone).ret with
    | error err => simp [change, ht, hT, hd, hl, hzr, hz, hd2, hl2]
    | ok zoneID =>
      cases hlr : (getLBHostedZone c (getZoneID ρ c m zone).provider target).ret with
      | error err =>
        simp only [change, ht, hT, hd, hl, hzr, hlr, hz, hlb, changeBatches_append,
          bne_self_eq_false, Bool.false_eq_true, if_false, List.append_nil, ne_eq,
          not_true_eq_false, false_iff, not_and, not_exists, List.cons.injEq, and_imp]
        refine ⟨?_, ?_, ?_, ?_⟩ <;> intros <;> subst_vars <;> simp_all
      | ok lbZoneID =>
        have hev := updateAlias_events c record.Spec.DNSName zoneID target lbZoneID action
        rcases hu : updateAlias c record.Spec.DNSName zoneID target lbZoneID action
          with ⟨_ | uerr, evs⟩
        all_goals
          rw [hu] at hev
          simp only at hev
          subst hev
          have hcb : changeBatches (change ρ c m record zone action).events
              = [aliasInput record.Spec.DNSName zoneID target lbZoneID action] := by
            simp [change, ht, hT, hd, hl, hzr, hlr, hu, hz, hlb, changeBatches_append]
            simp [changeBatches]
          rw [hcb]
          refine ⟨?_, ?_, ?_, ?_⟩
          · simp only [ne_eq, List.cons_ne_nil, not_false_eq_true, true_iff]
            exact ⟨ht, hd2, target, rest, zoneID, lbZoneID, rfl, hl2, rfl, hlr⟩
          · intro t2 r2 z2 l2 _ _ h3 _ h5 h6
            obtain ⟨rfl, rfl⟩ := List.cons.inj h3
            obtain rfl := Except.ok.inj h5
            rw [hlr] at h6
            obtain rfl := Except.ok.inj h6
            rfl
          · intro t2 r2 e2 _ _ _ _ h5
            cases h5
          · intro t2 r2 z2 e2 _ _ h3 _ _ h6
            obtain ⟨rfl, rfl⟩ := List.cons.inj h3
            rw [hlr] at h6
            cases h6

/-- C2: `change` submits a change batch exactly when the record passes validation
and both `getZoneID` and `getLBHostedZone` succeed.  It then submits exactly one
batch, addressed to the resolved zone, with one change: the given action, the
record's domain, type "A", and an alias to the first target in the resolved
load-balancer zone with target-health evaluation off; later targets play no
part.  When either resolution fails no batch is submitted and the error is
returned, wrapped with the failing step.  `Ensure` is `change` with the action
"UPSERT" and `Delete` is `change` with the action "DELETE", so the one batch of a
successful `Ensure` carries the action "UPSERT" and that of a successful `Delete`
the action "DELETE". -/
theorem C2_change_submits_one_batch (ρ : RangeOrder) (c : Clients) (m : Provider)
    (record : DNSRecord) (zone : DNSZone) (action : String) :
    (changeBatches (change ρ c m record zone action).events ≠ [] ↔
      (record.Spec.RecordType = CNAMERecordType ∧ record.Spec.DNSName ≠ "" ∧
        ∃ target rest zoneID lbZoneID,
          record.Spec.Targets = target :: rest ∧ target ≠ "" ∧
          (getZoneID ρ c m zone).ret = .ok zoneID ∧
          (getLBHostedZone c (getZoneID ρ c m zone).provider target).ret = .ok lbZoneID))
    ∧ (∀ target rest zoneID lbZoneID,
        record.Spec.RecordType = CNAMERecordType → record.Spec.DNSName ≠ "" →
        record.Spec.Targets = target :: rest → target ≠ "" →
        (getZoneID ρ c m zone).ret = .ok zoneID →
        (getLBHostedZone c (getZoneID ρ c m zone).provider target).ret = .ok lbZoneID →
        changeBatches (change ρ c m record zone action).events
          = [{ HostedZoneId := zoneID
               Changes := [{ Action := action
                             RecordSet := { Name := record.Spec.DNSName
                                            RType := "A"
                                            Alias := { HostedZoneId := lbZoneID
                                                       DNSName := target
                                                       EvaluateTargetHealth := false } } }] }])
    ∧ (∀ target rest err,
        record.Spec.RecordType = CNAMERecordType → record.Spec.DNSName ≠ "" →
        record.Spec.Targets = target :: rest → target ≠ "" →
        (getZoneID ρ c m zone).ret = .error err →
        (change ρ c m record zone action).exit = .returned (some (.findHostedZone err))
          ∧ changeBatches (change ρ c m record zone action).events = [])
    ∧ (∀ target rest zoneID err,
        record.Spec.RecordType = CNAMERecordType → record.Spec.DNSName ≠ "" →
        record.Spec.Targets = target :: rest → target ≠ "" →
        (getZoneID ρ c m zone).ret = .ok zoneID →
        (getLBHostedZone c (getZoneID ρ c m zone).provider target).ret = .error err →
        (change ρ c m record zone action).exit
            = .returned (some (.lbTargetHostedZone target err))
          ∧ changeBatches (change ρ c m record zone action).events = [])
    ∧ Ensure ρ c m record zone = change ρ c m record zone "UPSERT"
    ∧ Delete ρ c m record zone = change ρ c m record zone "DELETE"
    ∧ (∀ target rest zoneID lbZoneID,
        record.Spec.RecordType = CNAMERecordType → record.Spec.DNSName ≠ "" →
        record.Spec.Targets = target :: rest → target ≠ "" →
        (getZoneID ρ c m zone).ret = .ok zoneID →
        (getLBHostedZone c (getZoneID ρ c m zone).provider target).ret = .ok lbZoneID →
        changeBatches (Ensure ρ c m record zone).events
          = [{ HostedZoneId := zoneID
               Changes := [{ Action := "UPSERT"
                             RecordSet := { Name := record.Spec.DNSName
                                            RType := "A"
                                            Alias := { HostedZoneId := lbZoneID
                                                       DNSName := target
                                                       EvaluateTargetHealth := false } } }] }])
    ∧ (∀ target rest zoneID lbZoneID,
        record.Spec.RecordType = CNAMERecordType → record.Spec.DNSName ≠ "" →
        record.Spec.Targets = target :: rest → target ≠ "" →
        (getZoneID ρ c m zone).ret = .ok zoneID →
        (getLBHostedZone c (getZoneID ρ c m zone).provider target).ret = .ok lbZoneID →
        changeBatches (Delete ρ c m record zone).events
          = [{ HostedZoneId := zoneID
               Changes := [{ Action := "DELETE"
                             RecordSet := { Name := record.Spec.DNSName
                                            RType := "A"
                                            Alias := { HostedZoneId := lbZoneID
                                                       DNSName := target
                                                       EvaluateTargetHealth := false } } }] }]) := by
  have hgen := change_submits_one_batch ρ c m record zone action
  refine ⟨hgen.1, hgen.2.1, hgen.2.2.1, hgen.2.2.2, rfl, rfl, ?_, ?_⟩
  · intro target rest zoneID lbZoneID ht hd hT hl hz hlb
    exact (change_submits_one_batch ρ c m record zone upsertAction).2.1
      target rest zoneID lbZoneID ht hd hT hl hz hlb
  · intro target rest zoneID lbZoneID ht hd hT hl hz hlb
    exact (change_submits_one_batch ρ c m record zone deleteAction).2.1
      target rest zoneID lbZoneID ht hd hT hl hz hlb

/-- The end-to-end scenario: with the demo cluster's collaborators, `Ensure`
submits one UPSERT batch to zone `Z1`, an alias `A` record for the domain
pointing at the load balancer in zone `ZLB1`, health evaluation off; `Delete`
submits the same batch with the action DELETE. -/
theorem C2_end_to_end_witness :
    changeBatches (Ensure storedOrder demoClients freshProvider demoRecord demoZone).events
        = [{ HostedZoneId := "Z1"
             Changes := [{ Action := "UPSERT"
                           RecordSet := { Name := "apps.demo.example.com"
                                          RType := "A"
                                          Alias := { HostedZoneId := "ZLB1"
                                                     DNSName := "lb-123.example.com"
                                                     EvaluateTargetHealth := false } } }] }]
      ∧ changeBatches (Delete storedOrder demoClients freshProvider demoRecord demoZone).events
        = [{ HostedZoneId := "Z1"
             Changes := [{ Action := "DELETE"
                           RecordSet := { Name := "apps.demo.example.com"
                                          RType := "A"
                                          Alias := { HostedZoneId := "ZLB1"
                                                     DNSName := "lb-123.example.com"
                                                     EvaluateTargetHealth := false } } }] }] :=
  have h := C2_change_submits_one_batch storedOrder demoClients freshProvider demoRecord demoZone
    upsertAction
  ⟨h.2.2.2.2.2.2.1 "lb-123.example.com" [] "Z1" "ZLB1"
      (by decide) (by decide) rfl (by decide) rfl rfl,
    h.2.2.2.2.2.2.2 "lb-123.example.com" [] "Z1" "ZLB1"
      (by decide) (by decide) rfl (by decide) rfl rfl⟩

/-! ## Maps and `reflect.DeepEqual` -/

theorem find_key_eq_some {V : Type} (k : String) (v : V) (l : List (String × V))
    (h : (l.map Prod.fst).Nodup) :
    (l.find? (fun e => e.1 == k)).map Prod.snd = some v ↔ (k, v) ∈ l := by
  induction l with
  | nil => simp
  | cons e l ih =>
    rw [List.map_cons, List.nodup_cons] at h
    by_cases hk : e.1 = k
    · have hnot : (k, v) ∉ l := fun hm => h.1 (hk ▸ List.mem_map_of_mem Prod.fst hm)
      rw [List.find?_cons_of_pos _ (by simpa using hk)]
      simp only [Option.map_some', Option.some.injEq, List.mem_cons, hnot, or_false]
      constructor
      · intro hv
        exact Prod.ext hk.symm hv.symm
      · intro hv
        rw [← hv]
    · rw [List.find?_cons_of_neg _ (by simpa using hk), ih h.2]
      simp only [List.mem_cons]
      constructor
      · exact Or.inr
      · rintro (hv | hv)
        · exact absurd (congrArg Prod.fst hv).symm hk
        · exact hv

theorem GoMap.get?_eq_some_iff {V : Type} (m : GoMap V) (k : String) (v : V) :
    m.get? k = some v ↔ (k, v) ∈ m.entries :=
  find_key_eq_some k v m.entries m.nodupKeys

theorem GoMap.nodup_entries {V : Type} (m : GoMap V) : m.entries.Nodup :=
  List.Nodup.of_map Prod.fst m.nodupKeys

/-- The function `reflect.DeepEqual` on tag mappings holds exactly when both
are nil or both are non-nil, and they have the same key/value pairs. -/
theorem deepEqual_iff (a b : Tags) :
    deepEqual a b = true ↔ (a.isNone = b.isNone ∧ ∀ p, p ∈ Tags.pairs a ↔ p ∈ Tags.pairs b) := by
  cases a with
  | none => cases b <;> simp [deepEqual, Tags.pairs]
  | some x =>
    cases b with
    | none => simp [deepEqual]
    | some y =>
      simp only [deepEqual, GoMap.len, Bool.and_eq_true, beq_iff_eq, List.all_eq_true,
        Option.isNone_some, Tags.pairs, true_and, GoMap.get?_eq_some_iff]
      constructor
      · rintro ⟨hlen, hsub⟩
        have hsub2 : x.entries ⊆ y.entries := fun p hp => hsub p hp
        have hperm : x.entries.Perm y.entries :=
          (List.subperm_of_subset x.nodup_entries hsub2).perm_of_length_le (le_of_eq hlen.symm)
        exact fun p => hperm.mem_iff
      · intro h
        refine ⟨?_, fun p hp => (h p).1 hp⟩
        exact ((List.perm_ext_iff_of_nodup x.nodup_entries y.nodup_entries).2 h).length_eq

theorem deepEqual_refl (a : Tags) : deepEqual a a = true :=
  (deepEqual_iff a a).2 ⟨rfl, fun _ => Iff.rfl⟩

theorem deepEqual_symm {a b : Tags} (h : deepEqual a b = true) : deepEqual b a = true := by
  rw [deepEqual_iff] at h ⊢
  exact ⟨h.1.symm, fun p => (h.2 p).symm⟩

theorem deepEqual_trans {a b c : Tags} (h1 : deepEqual a b = true) (h2 : deepEqual b c = true) :
    deepEqual a c = true := by
  rw [deepEqual_iff] at h1 h2 ⊢
  exact ⟨h1.1.trans h2.1, fun p => (h1.2 p).trans (h2.2 p)⟩

/-! ## The zone resolver -/

theorem getZoneID_explicit (ρ : RangeOrder) (c : Clients) (m : Provider) (zone : DNSZone)
    (h : zone.ID ≠ "") : getZoneID ρ c m zone = ⟨.ok zone.ID, m, []⟩ := by
  have hlen : zone.ID.length > 0 :=
    Nat.pos_of_ne_zero fun h0 => h ((length_eq_zero_iff _).1 h0)
  simp [getZoneID, hlen]

theorem getZoneID_hit (ρ : RangeOrder) (c : Clients) (m : Provider) (zone : DNSZone)
    (e : String × Tags) (h : zone.ID = "")
    (hf : (ρ.visit m.idsToTags.entries).find? (fun e => deepEqual e.2 zone.Tags) = some e) :
    getZoneID ρ c m zone = ⟨.ok e.1, m, []⟩ := by
  simp [getZoneID, h, hf]

theorem getZoneID_miss (ρ : RangeOrder) (c : Clients) (m : Provider) (zone : DNSZone)
    (h : zone.ID = "")
    (hf : (ρ.visit m.idsToTags.entries).find? (fun e => deepEqual e.2 zone.Tags) = none) :
    (getZoneID ρ c m zone).events = [.getResourcesPages ["route53:hostedzone"] zone.Tags]
      ∧ ((∃ err, (getZoneID ρ c m zone).ret = .error err ∧ (getZoneID ρ c m zone).provider = m)
        ∨ ∃ id, id ≠ "" ∧ (getZoneID ρ c m zone).ret = .ok id
            ∧ (getZoneID ρ c m zone).provider
                = { m with idsToTags := m.idsToTags.set id zone.Tags }) := by
  simp only [getZoneID, h, hf]
  have h0 : ¬ ("".length > 0) := by decide
  simp only [h0, if_false]
  split
  · exact ⟨rfl, Or.inl ⟨_, rfl, rfl⟩⟩
  · split
    · exact ⟨rfl, Or.inl ⟨_, rfl, rfl⟩⟩
    · rename_i hid
      exact ⟨rfl, Or.inr ⟨_, fun h => hid ((length_eq_zero_iff _).2 h), rfl, rfl⟩⟩

theorem find_visit_eq_none (ρ : RangeOrder) (l : List (String × Tags)) (t : Tags) :
    (ρ.visit l).find? (fun e => deepEqual e.2 t) = none ↔ ∀ e ∈ l, deepEqual e.2 t = false := by
  rw [List.find?_eq_none]
  constructor
  · intro h e he
    have := h e ((ρ.perm l).mem_iff.2 he)
    simpa using this
  · intro h e he
    have := h e ((ρ.perm l).mem_iff.1 he)
    simp [this]

theorem find_visit_eq_some (ρ : RangeOrder) (l : List (String × Tags)) (t : Tags)
    (e : String × Tags) (h : (ρ.visit l).find? (fun e => deepEqual e.2 t) = some e) :
    e ∈ l ∧ deepEqual e.2 t = true :=
  ⟨(ρ.perm l).mem_iff.1 (List.mem_of_find?_eq_some h), by simpa using List.find?_some h⟩

/-- C9: for a zone spec with a non-empty explicit ID, whatever its tags and
whatever the caches hold, `getZoneID` returns that ID with no error, sends no
request to the tag inventory (or to any collaborator) and leaves both caches
as they were. -/
theorem C9_explicit_id_short_circuit (ρ : RangeOrder) (c : Clients) (m : Provider)
    (zone : DNSZone) (h : zone.ID ≠ "") :
    (getZoneID ρ c m zone).ret = .ok zone.ID
      ∧ (getZoneID ρ c m zone).events = []
      ∧ (getZoneID ρ c m zone).provider = m := by
  rw [getZoneID_explicit ρ c m zone h]
  exact ⟨rfl, rfl, rfl⟩

/-- An explicit ID wins over a cached entry with the same tags and over the inventory. -/
theorem C9_explicit_id_witness :
    ("ZX" : String) ≠ ""
      ∧ (getZoneID reversedOrder demoClients twoZoneProvider ⟨"ZX", oneTag "a" "1"⟩).ret = .ok "ZX"
      ∧ (getZoneID reversedOrder demoClients twoZoneProvider ⟨"ZX", oneTag "a" "1"⟩).events = []
      ∧ (getZoneID reversedOrder demoClients twoZoneProvider ⟨"ZX", oneTag "a" "1"⟩).provider
          = twoZoneProvider :=
  ⟨by decide, C9_explicit_id_short_circuit reversedOrder demoClients twoZoneProvider
    ⟨"ZX", oneTag "a" "1"⟩ (by decide)⟩

/-- C7, as stated, fails: a cached nil tag mapping and a spec with an empty,
non-nil tag mapping have the same (empty) set of key/value pairs, yet
`reflect.DeepEqual` tells them apart, so the call queries the inventory. -/
theorem C7_nil_versus_empty_counterexample :
    (∃ e ∈ nilTagProvider.idsToTags.entries,
        ∀ p, p ∈ Tags.pairs e.2 ↔ p ∈ Tags.pairs (some GoMap.empty))
      ∧ (getZoneID storedOrder demoClients nilTagProvider ⟨"", some GoMap.empty⟩).events
          = [.getResourcesPages ["route53:hostedzone"] (some GoMap.empty)] :=
  ⟨⟨("Z1", none), by simp [nilTagProvider], fun p => by simp [Tags.pairs, GoMap.empty]⟩, rfl⟩

/-- C7 (amended): for a zone spec with no explicit ID, `getZoneID` returns
without any request exactly when some cached entry's tag mapping is
`reflect.DeepEqual` to the spec's tags, that is both nil or both non-nil, with the
same key/value pairs; it then returns the ID of such an entry and leaves the
caches alone.  Otherwise (a strict subset or superset included) it queries
the tag inventory with the spec's tags. -/
theorem C7_cache_hit_iff_deep_equal (ρ : RangeOrder) (c : Clients) (m : Provider)
    (zone : DNSZone) (h : zone.ID = "") :
    ((getZoneID ρ c m zone).events = [] ↔
      ∃ e ∈ m.idsToTags.entries,
        e.2.isNone = zone.Tags.isNone ∧ ∀ p, p ∈ Tags.pairs e.2 ↔ p ∈ Tags.pairs zone.Tags)
    ∧ ((getZoneID ρ c m zone).events = [] →
      ∃ e ∈ m.idsToTags.entries,
        (e.2.isNone = zone.Tags.isNone ∧ ∀ p, p ∈ Tags.pairs e.2 ↔ p ∈ Tags.pairs zone.Tags)
          ∧ (getZoneID ρ c m zone).ret = .ok e.1 ∧ (getZoneID ρ c m zone).provider = m)
    ∧ ((¬ ∃ e ∈ m.idsToTags.entries,
        e.2.isNone = zone.Tags.isNone ∧ ∀ p, p ∈ Tags.pairs e.2 ↔ p ∈ Tags.pairs zone.Tags) →
      (getZoneID ρ c m zone).events = [.getResourcesPages ["route53:hostedzone"] zone.Tags]) := by
  cases hf : (ρ.visit m.idsToTags.entries).find? (fun e => deepEqual e.2 zone.Tags) with
  | none =>
    have hev := (getZoneID_miss ρ c m zone h hf).1
    have hno := (find_visit_eq_none ρ _ _).1 hf
    have hnot : ¬ ∃ e ∈ m.idsToTags.entries,
        e.2.isNone = zone.Tags.isNone ∧ ∀ p, p ∈ Tags.pairs e.2 ↔ p ∈ Tags.pairs zone.Tags := by
      rintro ⟨e, he, hde⟩
      have := hno e he
      rw [(deepEqual_iff _ _).2 hde] at this
      cases this
    rw [hev]
    refine ⟨⟨fun hc => (by cases hc), fun hx => absurd hx hnot⟩, fun hc => (by cases hc),
      fun _ => rfl⟩
  | some e =>
    obtain ⟨he, hde⟩ := find_visit_eq_some ρ _ _ e hf
    have hex : ∃ e ∈ m.idsToTags.entries,
        e.2.isNone = zone.Tags.isNone ∧ ∀ p, p ∈ Tags.pairs e.2 ↔ p ∈ Tags.pairs zone.Tags :=
      ⟨e, he, (deepEqual_iff _ _).1 hde⟩
    rw [getZoneID_hit ρ c m zone e h hf]
    exact ⟨⟨fun _ => hex, fun _ => rfl⟩,
      fun _ => ⟨e, he, (deepEqual_iff _ _).1 hde, rfl, rfl⟩, fun hn => absurd hex hn⟩

/-- With `Z1` cached for `{a:1}` and `Z2` for `{a:1, b:2}`, a spec with the tags
`{a:1}` is answered from the cache. -/
theorem C7_cache_hit_witness :
    (getZoneID reversedOrder demoClients twoZoneProvider ⟨"", oneTag "a" "1"⟩).events = [] ↔
      ∃ e ∈ twoZoneProvider.idsToTags.entries,
        e.2.isNone = (oneTag "a" "1").isNone ∧ ∀ p, p ∈ Tags.pairs e.2 ↔ p ∈ Tags.pairs (oneTag "a" "1") :=
  (C7_cache_hit_iff_deep_equal reversedOrder demoClients twoZoneProvider
    ⟨"", oneTag "a" "1"⟩ rfl).1

/-! ## Effects of the calls on the caches -/

theorem GoMap.mem_set {V : Type} (m : GoMap V) (k : String) (v : V) (e : String × V) :
    e ∈ (m.set k v).entries ↔ e = (k, v) ∨ (e ∈ m.entries ∧ e.1 ≠ k) := by
  simp [GoMap.set, List.mem_filter]

theorem GoMap.get?_set_self {V : Type} (m : GoMap V) (k : String) (v : V) :
    (m.set k v).get? k = some v :=
  (GoMap.get?_eq_some_iff _ _ _).2 ((GoMap.mem_set m k v _).2 (Or.inl rfl))

theorem GoMap.get?_set_of_ne {V : Type} (m : GoMap V) (k k2 : String) (v : V) (h : k2 ≠ k) :
    (m.set k v).get? k2 = m.get? k2 := by
  apply Option.ext
  intro w
  simp only [Option.mem_def, GoMap.get?_eq_some_iff, GoMap.mem_set]
  constructor
  · rintro (heq | ⟨hm, _⟩)
    · exact absurd (congrArg Prod.fst heq) h
    · exact hm
  · intro hm
    exact Or.inr ⟨hm, h⟩

theorem getZoneID_lbZones (ρ : RangeOrder) (c : Clients) (m : Provider) (zone : DNSZone) :
    (getZoneID ρ c m zone).provider.lbZones = m.lbZones := by
  simp only [getZoneID]
  repeat' split
  all_goals rfl

theorem getLBHostedZone_idsToTags (c : Clients) (m : Provider) (name : String) :
    (getLBHostedZone c m name).provider.idsToTags = m.idsToTags := by
  unfold getLBHostedZone
  repeat' split
  all_goals rfl

theorem getLBHostedZone_hit (c : Clients) (m : Provider) (name id : String)
    (h : m.lbZones.get? name = some id) : getLBHostedZone c m name = ⟨.ok id, m, []⟩ := by
  simp [getLBHostedZone, h]

theorem getLBHostedZone_miss (c : Clients) (m : Provider) (name : String)
    (h : m.lbZones.get? name = none) :
    (getLBHostedZone c m name).events.head? = some .describeLoadBalancers
      ∧ ((∃ err, (getLBHostedZone c m name).ret = .error err
            ∧ (getLBHostedZone c m name).provider = m)
        ∨ ∃ id, id ≠ "" ∧ (getLBHostedZone c m name).ret = .ok id
            ∧ (getLBHostedZone c m name).provider
                = { m with lbZones := m.lbZones.set name id }) := by
  simp only [getLBHostedZone, h]
  split
  · exact ⟨rfl, Or.inl ⟨_, rfl, rfl⟩⟩
  · split
    · split
      · exact ⟨rfl, Or.inl ⟨_, rfl, rfl⟩⟩
      · split
        · exact ⟨rfl, Or.inl ⟨_, rfl, rfl⟩⟩
        · rename_i hid
          exact ⟨rfl, Or.inr ⟨_, fun h => hid ((length_eq_zero_iff _).2 h), rfl, rfl⟩⟩
    · rename_i hid
      exact ⟨rfl, Or.inr ⟨_, fun h => hid ((length_eq_zero_iff _).2 h), rfl, rfl⟩⟩

theorem change_of_not_passes (ρ : RangeOrder) (c : Clients) (m : Provider) (record : DNSRecord)
    (zone : DNSZone) (action : String) (h : passesValidation record = false) :
    (change ρ c m record zone action).provider = m
      ∧ (change ρ c m record zone action).events = [] := by
  unfold passesValidation at h
  unfold change
  by_cases ht : record.Spec.RecordType = CNAMERecordType
  · cases hT : record.Spec.Targets with
    | nil => simp [ht]
    | cons target rest =>
      simp only [ht, hT, beq_self_eq_true, Bool.true_and, Bool.and_eq_false_iff, bne_eq_false_iff_eq]
        at h
      rcases h with h | h
      · simp [ht, h]
      · by_cases hd : record.Spec.DNSName.length = 0
        · simp [ht, hd]
        · simp [ht, hd, h]
  · simp [ht]

theorem change_of_passes (ρ : RangeOrder) (c : Clients) (m : Provider) (record : DNSRecord)
    (zone : DNSZone) (action : String) (h : passesValidation record = true) :
    (change ρ c m record zone action).provider.idsToTags
        = (getZoneID ρ c m zone).provider.idsToTags
      ∧ ((change ρ c m record zone action).provider.lbZones = m.lbZones
        ∨ ∃ target, (change ρ c m record zone action).provider.lbZones
            = (getLBHostedZone c (getZoneID ρ c m zone).provider target).provider.lbZones) := by
  unfold passesValidation at h
  cases hT : record.Spec.Targets with
  | nil => simp [hT] at h
  | cons target rest =>
    simp only [hT, Bool.and_eq_true, beq_iff_eq, bne_iff_ne, ne_eq] at h
    obtain ⟨ht, hd, hl⟩ := h
    have hd2 : ¬ record.Spec.DNSName.length = 0 := fun h0 => hd ((length_eq_zero_iff _).1 h0)
    have hl2 : ¬ target.length = 0 := fun h0 => hl ((length_eq_zero_iff _).1 h0)
    simp only [change, ht, hT, hd2, hl2, bne_self_eq_false, Bool.false_eq_true, if_false]
    cases hzr : (getZoneID ρ c m zone).ret with
    | error err => exact ⟨rfl, Or.inl (getZoneID_lbZones ρ c m zone)⟩
    | ok zoneID =>
      simp only
      cases hlr : (getLBHostedZone c (getZoneID ρ c m zone).provider target).ret with
      | error err =>
        exact ⟨getLBHostedZone_idsToTags _ _ _, Or.inr ⟨target, rfl⟩⟩
      | ok lbZoneID =>
        simp only
        split <;> exact ⟨getLBHostedZone_idsToTags _ _ _, Or.inr ⟨target, rfl⟩⟩

theorem getZoneID_step (ρ : RangeOrder) (c : Clients) (m : Provider) (zone : DNSZone) :
    ((match (getZoneID ρ c m zone).ret with
        | .ok id => if (getZoneID ρ c m zone).events.isEmpty then none else some id
        | .error _ => none) = none
      ∧ (getZoneID ρ c m zone).provider = m)
    ∨ ∃ id, (match (getZoneID ρ c m zone).ret with
        | .ok id => if (getZoneID ρ c m zone).events.isEmpty then none else some id
        | .error _ => none) = some id
      ∧ id ≠ ""
      ∧ (∀ e ∈ m.idsToTags.entries, deepEqual e.2 zone.Tags = false)
      ∧ (getZoneID ρ c m zone).provider = { m with idsToTags := m.idsToTags.set id zone.Tags } := by
  by_cases h : zone.ID = ""
  · cases hf : (ρ.visit m.idsToTags.entries).find? (fun e => deepEqual e.2 zone.Tags) with
    | none =>
      obtain ⟨hev, hcases⟩ := getZoneID_miss ρ c m zone h hf
      rcases hcases with ⟨err, hret, hprov⟩ | ⟨id, hid, hret, hprov⟩
      · left
        rw [hret]
        exact ⟨rfl, hprov⟩
      · right
        refine ⟨id, ?_, hid, (find_visit_eq_none ρ _ _).1 hf, hprov⟩
        rw [hret, hev]
        rfl
    | some e =>
      left
      rw [getZoneID_hit ρ c m zone e h hf]
      exact ⟨rfl, rfl⟩
  · left
    rw [getZoneID_explicit ρ c m zone h]
    exact ⟨rfl, rfl⟩

theorem opRun_idsToTags (m : Provider) (op : Op) :
    (op.searchedZone m = none ∧ (op.run m).idsToTags = m.idsToTags)
    ∨ ∃ id tags, op.searchedZone m = some id ∧ id ≠ ""
        ∧ (∀ e ∈ m.idsToTags.entries, deepEqual e.2 tags = false)
        ∧ (op.run m).idsToTags = m.idsToTags.set id tags := by
  have key : ∀ (ρ : RangeOrder) (c : Clients) (zone : DNSZone) (p : Provider),
      p.idsToTags = (getZoneID ρ c m zone).provider.idsToTags →
      ((match (getZoneID ρ c m zone).ret with
          | .ok id => if (getZoneID ρ c m zone).events.isEmpty then none else some id
          | .error _ => none) = none ∧ p.idsToTags = m.idsToTags)
      ∨ ∃ id tags, (match (getZoneID ρ c m zone).ret with
          | .ok id => if (getZoneID ρ c m zone).events.isEmpty then none else some id
          | .error _ => none) = some id ∧ id ≠ ""
        ∧ (∀ e ∈ m.idsToTags.entries, deepEqual e.2 tags = false)
        ∧ p.idsToTags = m.idsToTags.set id tags := by
    intro ρ c zone p hp
    rcases getZoneID_step ρ c m zone with ⟨h1, h2⟩ | ⟨id, h1, h2, h3, h4⟩
    · exact Or.inl ⟨h1, by rw [hp, h2]⟩
    · exact Or.inr ⟨id, zone.Tags, h1, h2, h3, by rw [hp, h4]⟩
  cases op with
  | getZoneID ρ c zone => exact key ρ c zone _ rfl
  | getLBHostedZone c name =>
    exact Or.inl ⟨rfl, getLBHostedZone_idsToTags c m name⟩
  | ensure ρ c record zone =>
    cases hp : passesValidation record with
    | false =>
      left
      simp only [Op.searchedZone, Op.zoneCall, hp, Bool.false_eq_true, if_false, Op.run, Ensure]
      rw [(change_of_not_passes ρ c m record zone upsertAction hp).1]
      exact ⟨trivial, rfl⟩
    | true =>
      simp only [Op.searchedZone, Op.zoneCall, hp, if_true, Op.run, Ensure]
      exact key ρ c zone _ (change_of_passes ρ c m record zone upsertAction hp).1
  | delete ρ c record zone =>
    cases hp : passesValidation record with
    | false =>
      left
      simp only [Op.searchedZone, Op.zoneCall, hp, Bool.false_eq_true, if_false, Op.run, Delete]
      rw [(change_of_not_passes ρ c m record zone deleteAction hp).1]
      exact ⟨trivial, rfl⟩
    | true =>
      simp only [Op.searchedZone, Op.zoneCall, hp, if_true, Op.run, Delete]
      exact key ρ c zone _ (change_of_passes ρ c m record zone deleteAction hp).1

theorem runOps_cons (m : Provider) (op : Op) (ops : List Op) :
    runOps m (op :: ops) = runOps (op.run m) ops := rfl

theorem runOps_key_kept (z : String) (ops : List Op) :
    ∀ m : Provider, (∃ t, m.idsToTags.get? z = some t) →
      ∃ t, (runOps m ops).idsToTags.get? z = some t := by
  induction ops with
  | nil => exact fun m h => h
  | cons op ops ih =>
    intro m h
    rw [runOps_cons]
    apply ih
    rcases opRun_idsToTags m op with ⟨_, h2⟩ | ⟨id, tags, _, _, _, h2⟩
    · rw [h2]
      exact h
    · rw [h2]
      by_cases hz : z = id
      · exact ⟨tags, hz ▸ GoMap.get?_set_self _ _ _⟩
      · rw [GoMap.get?_set_of_ne _ _ _ _ hz]
        exact h

theorem runOps_binding_kept (z : String) (T : Tags) (ops : List Op) :
    ∀ m : Provider, z ∉ searchedZones m ops → m.idsToTags.get? z = some T →
      (runOps m ops).idsToTags.get? z = some T := by
  induction ops with
  | nil => exact fun m _ h => h
  | cons op ops ih =>
    intro m hz h
    rw [runOps_cons]
    simp only [searchedZones, List.mem_append, not_or] at hz
    apply ih _ hz.2
    rcases opRun_idsToTags m op with ⟨_, h2⟩ | ⟨id, tags, h1, _, _, h2⟩
    · rw [h2]
      exact h
    · rw [h2]
      have hne : z ≠ id := by
        intro heq
        apply hz.1
        rw [h1, heq]
        simp
      rw [GoMap.get?_set_of_ne _ _ _ _ hne]
      exact h

theorem runOps_unique_for (T : Tags) (ops : List Op) :
    ∀ m : Provider,
      (∀ e1 ∈ m.idsToTags.entries, ∀ e2 ∈ m.idsToTags.entries,
        deepEqual e1.2 T = true → deepEqual e2.2 T = true → e1.1 = e2.1) →
      ∀ e1 ∈ (runOps m ops).idsToTags.entries, ∀ e2 ∈ (runOps m ops).idsToTags.entries,
        deepEqual e1.2 T = true → deepEqual e2.2 T = true → e1.1 = e2.1 := by
  induction ops with
  | nil => exact fun m h => h
  | cons op ops ih =>
    intro m h
    rw [runOps_cons]
    apply ih
    rcases opRun_idsToTags m op with ⟨_, h2⟩ | ⟨id, tags, _, _, hmiss, h2⟩
    · rw [h2]
      exact h
    · rw [h2]
      have hno : ∀ e ∈ m.idsToTags.entries, deepEqual e.2 T = true →
          deepEqual tags T = true → False := by
        intro e he h1 h3
        have := hmiss e he
        rw [deepEqual_trans h1 (deepEqual_symm h3)] at this
        cases this
      intro e1 he1 e2 he2 hd1 hd2
      rcases (GoMap.mem_set _ _ _ _).1 he1 with rfl | ⟨hm1, _⟩
      · rcases (GoMap.mem_set _ _ _ _).1 he2 with rfl | ⟨hm2, _⟩
        · rfl
        · exact (hno e2 hm2 hd2 hd1).elim
      · rcases (GoMap.mem_set _ _ _ _).1 he2 with rfl | ⟨hm2, _⟩
        · exact (hno e1 hm1 hd1 hd2).elim
        · exact h e1 hm1 e2 hm2 hd1 hd2

/-- C4, as stated, fails: zone `Z1` is resolved and cached for the tags `{a:1}`;
a later call with the tags `{a:1, b:2}` is resolved by the inventory to the same
zone `Z1` and overwrites `idsToTags["Z1"]`; the next call with the tags `{a:1}`
misses the cache and queries the inventory again (here it finds nothing). -/
theorem C4_rebound_entry_counterexample :
    (getZoneID storedOrder demoClients freshProvider ⟨"", oneTag "a" "1"⟩).ret = .ok "Z1"
      ∧ (getZoneID storedOrder demoClients freshProvider ⟨"", oneTag "a" "1"⟩).events
          = [.getResourcesPages ["route53:hostedzone"] (oneTag "a" "1")]
      ∧ (getZoneID storedOrder demoClients freshProvider ⟨"", oneTag "a" "1"⟩).provider.idsToTags.get?
          "Z1" = some (oneTag "a" "1")
      ∧ (getZoneID storedOrder emptyClients
          (runOps (getZoneID storedOrder demoClients freshProvider ⟨"", oneTag "a" "1"⟩).provider
            [.getZoneID storedOrder demoClients ⟨"", tagsAB "1" "2"⟩])
          ⟨"", oneTag "a" "1"⟩).events
          = [.getResourcesPages ["route53:hostedzone"] (oneTag "a" "1")]
      ∧ (getZoneID storedOrder emptyClients
          (runOps (getZoneID storedOrder demoClients freshProvider ⟨"", oneTag "a" "1"⟩).provider
            [.getZoneID storedOrder demoClients ⟨"", tagsAB "1" "2"⟩])
          ⟨"", oneTag "a" "1"⟩).ret = .error .noMatchingHostedZone :=
  ⟨rfl, rfl, rfl, rfl, rfl⟩

/-- C4 (amended): a zone cache entry is never evicted, but it can be replaced,
`idsToTags` being keyed by zone ID.  Once `getZoneID` has resolved the tags `T`
by inventory search to `z` and cached it, then after every later sequence of
calls (`getZoneID`, `getLBHostedZone`, `Ensure`, `Delete`, with any arguments,
iteration orders and inventory contents): `z` is still a key of `idsToTags`; its
cached tags are still `T` unless one of those calls resolved `z` again by an
inventory search; and while they are, a `getZoneID` call whose tags are
`reflect.DeepEqual` to `T` returns `z` with no request and no change of the caches. -/
theorem C4_zone_entry_kept_until_rebound (ρ0 : RangeOrder) (c0 : Clients) (m0 : Provider)
    (T : Tags) (z : String)
    (hret : (getZoneID ρ0 c0 m0 ⟨"", T⟩).ret = .ok z)
    (hq : (getZoneID ρ0 c0 m0 ⟨"", T⟩).events ≠ [])
    (ops : List Op) (ρ : RangeOrder) (c : Clients) :
    (∃ t, (runOps (getZoneID ρ0 c0 m0 ⟨"", T⟩).provider ops).idsToTags.get? z = some t)
    ∧ (z ∉ searchedZones (getZoneID ρ0 c0 m0 ⟨"", T⟩).provider ops →
        (runOps (getZoneID ρ0 c0 m0 ⟨"", T⟩).provider ops).idsToTags.get? z = some T)
    ∧ ((runOps (getZoneID ρ0 c0 m0 ⟨"", T⟩).provider ops).idsToTags.get? z = some T →
        ∀ T2, deepEqual T T2 = true →
          getZoneID ρ c (runOps (getZoneID ρ0 c0 m0 ⟨"", T⟩).provider ops) ⟨"", T2⟩
            = ⟨.ok z, runOps (getZoneID ρ0 c0 m0 ⟨"", T⟩).provider ops, []⟩) := by
  -- the first call was a cache miss followed by a successful search
  have hstep := getZoneID_step ρ0 c0 m0 ⟨"", T⟩
  have hne : (getZoneID ρ0 c0 m0 ⟨"", T⟩).events.isEmpty = false := by
    cases hev : (getZoneID ρ0 c0 m0 ⟨"", T⟩).events with
    | nil => exact absurd hev hq
    | cons _ _ => rfl
  rw [hret] at hstep
  simp only [hne, Bool.false_eq_true, if_false] at hstep
  rcases hstep with ⟨hc, -⟩ | ⟨id, hid, -, hmiss, hprov⟩
  · cases hc
  obtain rfl := Option.some.inj hid
  have hbind : (getZoneID ρ0 c0 m0 ⟨"", T⟩).provider.idsToTags.get? z = some T := by
    rw [hprov]
    exact GoMap.get?_set_self _ _ _
  have huniq : ∀ e1 ∈ (getZoneID ρ0 c0 m0 ⟨"", T⟩).provider.idsToTags.entries,
      ∀ e2 ∈ (getZoneID ρ0 c0 m0 ⟨"", T⟩).provider.idsToTags.entries,
      deepEqual e1.2 T = true → deepEqual e2.2 T = true → e1.1 = e2.1 := by
    rw [hprov]
    intro e1 he1 e2 he2 hd1 hd2
    have hin : ∀ e ∈ (m0.idsToTags.set z T).entries, deepEqual e.2 T = true → e.1 = z := by
      intro e he hd
      rcases (GoMap.mem_set _ _ _ _).1 he with rfl | ⟨hm, _⟩
      · rfl
      · have := hmiss e hm
        rw [hd] at this
        cases this
    rw [hin e1 he1 hd1, hin e2 he2 hd2]
  refine ⟨runOps_key_kept z ops _ ⟨T, hbind⟩, fun hz => runOps_binding_kept z T ops _ hz hbind, ?_⟩
  intro hfinal T2 hT2
  have hmem := (GoMap.get?_eq_some_iff _ _ _).1 hfinal
  have hu := runOps_unique_for T ops _ huniq
  cases hf : (ρ.visit (runOps (getZoneID ρ0 c0 m0 ⟨"", T⟩).provider ops).idsToTags.entries).find?
      (fun e => deepEqual e.2 T2) with
  | none =>
    have := (find_visit_eq_none ρ _ _).1 hf _ hmem
    rw [hT2] at this
    cases this
  | some e =>
    obtain ⟨he, hde⟩ := find_visit_eq_some ρ _ _ e hf
    have hez : e.1 = z :=
      hu e he _ hmem (deepEqual_trans hde (deepEqual_symm hT2)) (deepEqual_refl T)
    rw [getZoneID_hit ρ c _ ⟨"", T2⟩ e rfl hf, hez]

/-- Zone `Z1` is cached for the tags `{a:1}`; a load-balancer lookup and a search
that resolves other tags to `Z2` follow; a lookup with the tags `{a:1}` is then
answered `Z1` from the cache, whatever the iteration order and the inventory. -/
theorem C4_zone_entry_kept_witness :
    getZoneID reversedOrder emptyClients
        (runOps (getZoneID storedOrder demoClients freshProvider ⟨"", oneTag "a" "1"⟩).provider
          [.getLBHostedZone demoClients "lb-123.example.com",
           .getZoneID storedOrder otherClients ⟨"", tagsAB "1" "2"⟩])
        ⟨"", oneTag "a" "1"⟩
      = ⟨.ok "Z1",
          runOps (getZoneID storedOrder demoClients freshProvider ⟨"", oneTag "a" "1"⟩).provider
            [.getLBHostedZone demoClients "lb-123.example.com",
             .getZoneID storedOrder otherClients ⟨"", tagsAB "1" "2"⟩], []⟩ :=
  have h := C4_zone_entry_kept_until_rebound storedOrder demoClients freshProvider
    (oneTag "a" "1") "Z1" rfl (by decide)
    [.getLBHostedZone demoClients "lb-123.example.com",
     .getZoneID storedOrder otherClients ⟨"", tagsAB "1" "2"⟩] reversedOrder emptyClients
  h.2.2 (h.2.1 (by decide)) (oneTag "a" "1") (by decide)

/-! ## The load-balancer zone locator -/

theorem elbFn_eq (name id : String) (page : List LoadBalancerDescription) :
    elbFn name id page =
      match page.find? (fun lb => stringValue lb.DNSName = name) with
      | some lb => (stringValue lb.CanonicalHostedZoneNameID, false)
      | none => (id, true) := by
  induction page with
  | nil => rfl
  | cons lb rest ih =>
    by_cases h : stringValue lb.DNSName = name
    · simp [elbFn, h]
    · simp [elbFn, h, ih]

theorem eachPage_elbFn (name id : String) (err : Option SvcError)
    (pages : List (List LoadBalancerDescription)) :
    eachPage (elbFn name) id pages err =
      match pages.flatten.find? (fun lb => stringValue lb.DNSName = name) with
      | some lb => (stringValue lb.CanonicalHostedZoneNameID, none)
      | none => (id, err) := by
  induction pages with
  | nil => rfl
  | cons page rest ih =>
    rw [List.flatten_cons, List.find?_append, eachPage, elbFn_eq]
    cases hp : page.find? (fun lb => stringValue lb.DNSName = name) with
    | some lb => simp
    | none => simp [ih]

/-- C6, as stated, fails: the name is in both inventories, but the matching
classic entry carries no hosted-zone ID; the empty ID reads as "not found", the
second-generation inventory is consulted and its zone is returned. -/
theorem C6_blank_classic_zone_counterexample :
    freshProvider.lbZones.get? "lb-123.example.com" = none
      ∧ blankClassicClients.elb.pages.flatten.find?
          (fun lb => stringValue lb.DNSName = "lb-123.example.com")
          = some ⟨some "lb-123.example.com", none⟩
      ∧ blankClassicClients.elbv2.pages.flatten.find?
          (fun lb => stringValue lb.DNSName = "lb-123.example.com")
          = some ⟨some "lb-123.example.com", some "ZLB2"⟩
      ∧ (getLBHostedZone blankClassicClients freshProvider "lb-123.example.com").ret = .ok "ZLB2"
      ∧ (getLBHostedZone blankClassicClients freshProvider "lb-123.example.com").events
          = [.describeLoadBalancers, .describeLoadBalancersV2] :=
  ⟨rfl, rfl, rfl, rfl, rfl⟩

/-- C6 (amended): for an uncached DNS name, when the first classic entry in page
order whose DNS name equals the name (exact comparison) carries a non-empty
hosted-zone ID, `getLBHostedZone` returns that ID, caches it, and sends the
classic query only, whatever the second-generation inventory holds.  The
second-generation inventory is consulted only when no classic entry has the
name or the first one that has it carries an empty hosted-zone ID. -/
theorem C6_classic_inventory_first (c : Clients) (m : Provider) (name : String)
    (hun : m.lbZones.get? name = none) :
    (∀ lb, c.elb.pages.flatten.find? (fun lb => stringValue lb.DNSName = name) = some lb →
        stringValue lb.CanonicalHostedZoneNameID ≠ "" →
        getLBHostedZone c m name
          = ⟨.ok (stringValue lb.CanonicalHostedZoneNameID),
              { m with lbZones := m.lbZones.set name (stringValue lb.CanonicalHostedZoneNameID) },
              [.describeLoadBalancers]⟩)
    ∧ (Event.describeLoadBalancersV2 ∈ (getLBHostedZone c m name).events →
        c.elb.pages.flatten.find? (fun lb => stringValue lb.DNSName = name) = none
          ∨ ∃ lb, c.elb.pages.flatten.find? (fun lb => stringValue lb.DNSName = name) = some lb
              ∧ stringValue lb.CanonicalHostedZoneNameID = "") := by
  have hpage := eachPage_elbFn name "" c.elb.err c.elb.pages
  cases hf : c.elb.pages.flatten.find? (fun lb => stringValue lb.DNSName = name) with
  | none => exact ⟨fun lb h => (by cases h), fun _ => Or.inl rfl⟩
  | some lb0 =>
    rw [hf] at hpage
    by_cases hz : stringValue lb0.CanonicalHostedZoneNameID = ""
    · exact ⟨fun lb h hne => absurd hz (Option.some.inj h ▸ hne), fun _ => Or.inr ⟨lb0, rfl, hz⟩⟩
    · have hlen : ¬ (stringValue lb0.CanonicalHostedZoneNameID).length = 0 :=
        fun h0 => hz ((length_eq_zero_iff _).1 h0)
      have hout : getLBHostedZone c m name
          = ⟨.ok (stringValue lb0.CanonicalHostedZoneNameID),
              { m with lbZones := m.lbZones.set name (stringValue lb0.CanonicalHostedZoneNameID) },
              [.describeLoadBalancers]⟩ := by
        simp only [getLBHostedZone, hun, hpage, hlen, if_false]
      refine ⟨fun lb h _ => ?_, fun hv2 => ?_⟩
      · obtain rfl := Option.some.inj h
        exact hout
      · rw [hout] at hv2
        simp at hv2

/-- The load balancer is in both inventories: the classic zone `ZLB1` is returned. -/
theorem C6_classic_first_witness :
    getLBHostedZone bothClients freshProvider "lb-123.example.com"
      = ⟨.ok "ZLB1", { freshProvider with
            lbZones := freshProvider.lbZones.set "lb-123.example.com" "ZLB1" },
          [.describeLoadBalancers]⟩ :=
  (C6_classic_inventory_first bothClients freshProvider "lb-123.example.com" rfl).1
    ⟨some "lb-123.example.com", some "ZLB1"⟩ rfl (by decide)

theorem getLBHostedZone_lbZones (c : Clients) (m : Provider) (name : String) :
    (getLBHostedZone c m name).provider.lbZones = m.lbZones
      ∨ ∃ id, m.lbZones.get? name = none
          ∧ (getLBHostedZone c m name).provider.lbZones = m.lbZones.set name id := by
  cases h : m.lbZones.get? name with
  | some id =>
    rw [getLBHostedZone_hit c m name id h]
    exact Or.inl rfl
  | none =>
    rcases (getLBHostedZone_miss c m name h).2 with ⟨err, -, hprov⟩ | ⟨id, -, -, hprov⟩
    · rw [hprov]
      exact Or.inl rfl
    · rw [hprov]
      exact Or.inr ⟨id, rfl, rfl⟩

theorem opRun_lbZones (m : Provider) (op : Op) :
    (op.run m).lbZones = m.lbZones
      ∨ ∃ name id, m.lbZones.get? name = none ∧ (op.run m).lbZones = m.lbZones.set name id := by
  have key : ∀ (ρ : RangeOrder) (c : Clients) (record : DNSRecord) (zone : DNSZone)
      (action : String),
      (change ρ c m record zone action).provider.lbZones = m.lbZones
        ∨ ∃ name id, m.lbZones.get? name = none
            ∧ (change ρ c m record zone action).provider.lbZones = m.lbZones.set name id := by
    intro ρ c record zone action
    cases hp : passesValidation record with
    | false =>
      rw [(change_of_not_passes ρ c m record zone action hp).1]
      exact Or.inl rfl
    | true =>
      rcases (change_of_passes ρ c m record zone action hp).2 with h | ⟨target, h⟩
      · exact Or.inl h
      · rw [h]
        have hz := getZoneID_lbZones ρ c m zone
        rcases getLBHostedZone_lbZones c (getZoneID ρ c m zone).provider target
          with h2 | ⟨id, h2, h3⟩
        · rw [h2, hz]
          exact Or.inl rfl
        · rw [h3, hz]
          rw [hz] at h2
          exact Or.inr ⟨target, id, h2, rfl⟩
  cases op with
  | getZoneID ρ c zone => exact Or.inl (getZoneID_lbZones ρ c m zone)
  | getLBHostedZone c name =>
    rcases getLBHostedZone_lbZones c m name with h | ⟨id, h1, h2⟩
    · exact Or.inl h
    · exact Or.inr ⟨name, id, h1, h2⟩
  | ensure ρ c record zone => exact key ρ c record zone upsertAction
  | delete ρ c record zone => exact key ρ c record zone deleteAction

theorem runOps_lbZone_kept (name z : String) (ops : List Op) :
    ∀ m : Provider, m.lbZones.get? name = some z →
      (runOps m ops).lbZones.get? name = some z := by
  induction ops with
  | nil => exact fun m h => h
  | cons op ops ih =>
    intro m h
    rw [runOps_cons]
    apply ih
    rcases opRun_lbZones m op with h2 | ⟨name2, id, hnone, h2⟩
    · rw [h2]
      exact h
    · rw [h2]
      have hne : name ≠ name2 := by
        rintro rfl
        rw [h] at hnone
        cases hnone
      rw [GoMap.get?_set_of_ne _ _ _ _ hne]
      exact h

/-- C8: one DNS name maps to at most one routing zone for the provider's
lifetime.  After `getLBHostedZone(name)` has succeeded with zone `z`, then after
every later sequence of calls (`getZoneID`, `getLBHostedZone`, `Ensure`, `Delete`,
with any arguments and any inventory contents) `lbZones` still maps the name to
`z`, and a further `getLBHostedZone(name)` returns `z` with no request to either
inventory and no change of the caches.  A lookup that fails, by a query error or
because the name is not found, leaves the caches unchanged. -/
theorem C8_lb_zone_fixed_for_lifetime (c0 : Clients) (m0 : Provider) (name z : String)
    (h : (getLBHostedZone c0 m0 name).ret = .ok z) (ops : List Op) (c : Clients) :
    (runOps (getLBHostedZone c0 m0 name).provider ops).lbZones.get? name = some z
    ∧ getLBHostedZone c (runOps (getLBHostedZone c0 m0 name).provider ops) name
        = ⟨.ok z, runOps (getLBHostedZone c0 m0 name).provider ops, []⟩
    ∧ (∀ (c2 : Clients) (m2 : Provider) (name2 : String) (err : Error),
        (getLBHostedZone c2 m2 name2).ret = .error err →
        (getLBHostedZone c2 m2 name2).provider = m2) := by
  have hfirst : (getLBHostedZone c0 m0 name).provider.lbZones.get? name = some z := by
    cases hg : m0.lbZones.get? name with
    | some id =>
      rw [getLBHostedZone_hit c0 m0 name id hg] at h ⊢
      obtain rfl := Except.ok.inj h
      exact hg
    | none =>
      rcases (getLBHostedZone_miss c0 m0 name hg).2 with ⟨err, hret, -⟩ | ⟨id, -, hret, hprov⟩
      · rw [hret] at h
        cases h
      · rw [hret] at h
        obtain rfl := Except.ok.inj h
        rw [hprov]
        exact GoMap.get?_set_self _ _ _
  have hkept := runOps_lbZone_kept name z ops _ hfirst
  refine ⟨hkept, getLBHostedZone_hit c _ name z hkept, ?_⟩
  intro c2 m2 name2 err herr
  cases hg : m2.lbZones.get? name2 with
  | some id =>
    rw [getLBHostedZone_hit c2 m2 name2 id hg]
  | none =>
    rcases (getLBHostedZone_miss c2 m2 name2 hg).2 with ⟨_, -, hprov⟩ | ⟨id, -, hret, -⟩
    · exact hprov
    · rw [hret] at herr
      cases herr

/-- The load balancer is resolved to `ZLB1`; its inventories then change (the
name now belongs to zone `ZLB2`) and an `Ensure` and a zone lookup run; the name
still resolves to `ZLB1`, from the cache. -/
theorem C8_lb_zone_fixed_witness :
    getLBHostedZone otherClients
        (runOps (getLBHostedZone bothClients freshProvider "lb-123.example.com").provider
          [.ensure storedOrder otherClients demoRecord demoZone,
           .getLBHostedZone otherClients "new.example.com",
           .getZoneID reversedOrder demoClients demoZone])
        "lb-123.example.com"
      = ⟨.ok "ZLB1",
          runOps (getLBHostedZone bothClients freshProvider "lb-123.example.com").provider
            [.ensure storedOrder otherClients demoRecord demoZone,
             .getLBHostedZone otherClients "new.example.com",
             .getZoneID reversedOrder demoClients demoZone], []⟩ :=
  (C8_lb_zone_fixed_for_lifetime bothClients freshProvider "lb-123.example.com" "ZLB1" rfl
    [.ensure storedOrder otherClients demoRecord demoZone,
     .getLBHostedZone otherClients "new.example.com",
     .getZoneID reversedOrder demoClients demoZone] otherClients).2.1

/-! ## Client configuration -/

/-- C5 (defect of the code): the endpoint loop of `getAwsConfig` never reads the
requested service.  With a valid Route 53 endpoint `u1` followed by a valid
load-balancer endpoint `u2`, the configuration returned for the Route 53
service carries the endpoint `u2`, the last one listed, not `u1`. -/
theorem C5_last_listed_endpoint_wins (parse : UriParser) (accessID accessKey cfgRegion : String)
    (region u1 u2 : String)
    (hr1 : region ≠ CnNorth1RegionID) (hr2 : region ≠ CnNorthwest1RegionID)
    (h1 : ValidateServiceEndpoint parse u1 = none)
    (h2 : ValidateServiceEndpoint parse u2 = none) :
    getAwsConfig parse
        ⟨accessID, accessKey, cfgRegion, [⟨Route53Service, u1⟩, ⟨ELBService, u2⟩]⟩
        region Route53Service
      = .ok { Region := none, Endpoint := some u2 } := by
  have hne : ELBService ≠ Route53Service := by decide
  simp [getAwsConfig, hr1, hr2, scanEndpoints, h1, h2, hne, NewConfig, AwsConfig.WithEndpoint]

/-- For the region `us-east-2` and the two-endpoint configuration, the Route 53
client is configured with the load balancers' endpoint. -/
theorem C5_last_listed_endpoint_witness :
    getAwsConfig hostOnlyParser twoEndpointConfig "us-east-2" "route53"
      = .ok { Region := none
              Endpoint := some "https://elasticloadbalancing.us-east-2.amazonaws.com" } :=
  C5_last_listed_endpoint_wins hostOnlyParser "id" "key" "us-east-2" "us-east-2"
    "https://route53.amazonaws.com" "https://elasticloadbalancing.us-east-2.amazonaws.com"
    (by decide) (by decide) (by decide) (by decide)

/-! ## Idempotence of `Ensure` -/

theorem updateAlias_upsert_none_iff (c : Clients) (domain zoneID target lbZoneID : String) :
    (updateAlias c domain zoneID target lbZoneID upsertAction).1 = none
      ↔ c.route53 (aliasInput domain zoneID target lbZoneID upsertAction) = none := by
  unfold updateAlias
  dsimp only
  cases h : c.route53 (aliasInput domain zoneID target lbZoneID upsertAction) with
  | none => simp
  | some err => simp [upsertAction, deleteAction]

theorem change_success (ρ : RangeOrder) (c : Clients) (m : Provider) (record : DNSRecord)
    (zone : DNSZone) (action : String)
    (h : (change ρ c m record zone action).exit = .returned none) :
    ∃ target rest zoneID lbZoneID,
      record.Spec.RecordType = CNAMERecordType ∧ record.Spec.DNSName ≠ ""
      ∧ record.Spec.Targets = target :: rest ∧ target ≠ ""
      ∧ (getZoneID ρ c m zone).ret = .ok zoneID
      ∧ (getLBHostedZone c (getZoneID ρ c m zone).provider target).ret = .ok lbZoneID
      ∧ (updateAlias c record.Spec.DNSName zoneID target lbZoneID action).1 = none
      ∧ (change ρ c m record zone action).provider
          = (getLBHostedZone c (getZoneID ρ c m zone).provider target).provider
      ∧ (change ρ c m record zone action).events
          = (getZoneID ρ c m zone).events
            ++ (getLBHostedZone c (getZoneID ρ c m zone).provider target).events
            ++ [.changeResourceRecordSets
                  (aliasInput record.Spec.DNSName zoneID target lbZoneID action)] := by
  by_cases ht : record.Spec.RecordType = CNAMERecordType
  swap
  · simp [change, ht] at h
  cases hT : record.Spec.Targets with
  | nil => simp [change, ht, hT] at h
  | cons target rest =>
    by_cases hd : record.Spec.DNSName.length = 0
    · simp [change, ht, hT, hd] at h
    by_cases hl : target.length = 0
    · simp [change, ht, hT, hd, hl] at h
    have hd2 : record.Spec.DNSName ≠ "" := fun h0 => hd ((length_eq_zero_iff _).2 h0)
    have hl2 : target ≠ "" := fun h0 => hl ((length_eq_zero_iff _).2 h0)
    cases hzr : (getZoneID ρ c m zone).ret with
    | error err => simp [change, ht, hT, hd, hl, hzr] at h
    | ok zoneID =>
      cases hlr : (getLBHostedZone c (getZoneID ρ c m zone).provider target).ret with
      | error err => simp [change, ht, hT, hd, hl, hzr, hlr] at h
      | ok lbZoneID =>
        have hev := updateAlias_events c record.Spec.DNSName zoneID target lbZoneID action
        rcases hu : updateAlias c record.Spec.DNSName zoneID target lbZoneID action
          with ⟨_ | uerr, evs⟩
        · rw [hu] at hev
          simp only at hev
          subst hev
          refine ⟨target, rest, zoneID, lbZoneID, ht, hd2, rfl, hl2, rfl, hlr, ?_, ?_, ?_⟩
          · rw [hu]
          · simp [change, ht, hT, hd, hl, hzr, hlr, hu]
          · simp [change, ht, hT, hd, hl, hzr, hlr, hu]
        · simp [change, ht, hT, hd, hl, hzr, hlr, hu] at h

theorem change_of_resolved (ρ : RangeOrder) (c : Clients) (m : Provider) (record : DNSRecord)
    (zone : DNSZone) (action target zoneID lbZoneID : String) (rest : List String)
    (ht : record.Spec.RecordType = CNAMERecordType) (hd : record.Spec.DNSName ≠ "")
    (hT : record.Spec.Targets = target :: rest) (hl : target ≠ "")
    (hz : getZoneID ρ c m zone = ⟨.ok zoneID, m, []⟩)
    (hlb : getLBHostedZone c m target = ⟨.ok lbZoneID, m, []⟩)
    (hu : (updateAlias c record.Spec.DNSName zoneID target lbZoneID action).1 = none) :
    (change ρ c m record zone action).exit = .returned none
      ∧ (change ρ c m record zone action).provider = m
      ∧ (change ρ c m record zone action).events
          = [.changeResourceRecordSets
              (aliasInput record.Spec.DNSName zoneID target lbZoneID action)] := by
  have hd2 : ¬ record.Spec.DNSName.length = 0 := fun h0 => hd ((length_eq_zero_iff _).1 h0)
  have hl2 : ¬ target.length = 0 := fun h0 => hl ((length_eq_zero_iff _).1 h0)
  have hev := updateAlias_events c record.Spec.DNSName zoneID target lbZoneID action
  rcases hua : updateAlias c record.Spec.DNSName zoneID target lbZoneID action with ⟨e, evs⟩
  rw [hua] at hu hev
  simp only at hu hev
  subst hu hev
  simp [change, ht, hT, hd2, hl2, hz, hlb, hua]

theorem getLBHostedZone_ok_cached (c : Clients) (m : Provider) (name z : String)
    (h : (getLBHostedZone c m name).ret = .ok z) :
    (getLBHostedZone c m name).provider.lbZones.get? name = some z := by
  cases hg : m.lbZones.get? name with
  | some id =>
    rw [getLBHostedZone_hit c m name id hg] at h ⊢
    obtain rfl := Except.ok.inj h
    exact hg
  | none =>
    rcases (getLBHostedZone_miss c m name hg).2 with ⟨err, hret, -⟩ | ⟨id, -, hret, hprov⟩
    · rw [hret] at h
      cases h
    · rw [hret] at h
      obtain rfl := Except.ok.inj h
      rw [hprov]
      exact GoMap.get?_set_self _ _ _

theorem getZoneID_ok_cached (ρ : RangeOrder) (c : Clients) (m : Provider) (zone : DNSZone)
    (id : String) (h0 : zone.ID = "") (h : (getZoneID ρ c m zone).ret = .ok id) :
    ∃ t, (id, t) ∈ (getZoneID ρ c m zone).provider.idsToTags.entries
      ∧ deepEqual t zone.Tags = true := by
  cases hf : (ρ.visit m.idsToTags.entries).find? (fun e => deepEqual e.2 zone.Tags) with
  | none =>
    rcases (getZoneID_miss ρ c m zone h0 hf).2 with ⟨err, hret, -⟩ | ⟨id2, -, hret, hprov⟩
    · rw [hret] at h
      cases h
    · rw [hret] at h
      obtain rfl := Except.ok.inj h
      rw [hprov]
      exact ⟨zone.Tags, (GoMap.mem_set _ _ _ _).2 (Or.inl rfl), deepEqual_refl _⟩
  | some e =>
    obtain ⟨he, hde⟩ := find_visit_eq_some ρ _ _ e hf
    rw [getZoneID_hit ρ c m zone e h0 hf] at h ⊢
    obtain rfl := Except.ok.inj h
    exact ⟨e.2, he, hde⟩

theorem runOps_append (m : Provider) (a b : List Op) :
    runOps m (a ++ b) = runOps (runOps m a) b := by
  simp [runOps, List.foldl_append]

/-- C10: `Ensure` is idempotent.  On a provider in any state reachable from the
fresh caches, when a first `Ensure` succeeds, a second `Ensure` with the same
record and zone spec, whatever the iteration order and the inventories then
hold (the same ones in particular), with a record service that again accepts
the batch, also succeeds, submits a change batch identical to the first and
leaves the caches as the first call left them.  With the record service read
as a map from (zone, name, type) to alias target that UPSERT overwrites, the map
after the two calls equals the map after the first. -/
theorem C10_ensure_idempotent (ops : List Op) (ρ1 ρ2 : RangeOrder) (c1 c2 : Clients)
    (record : DNSRecord) (zone : DNSZone) (store : RecordStore)
    (h1 : (Ensure ρ1 c1 (runOps freshProvider ops) record zone).exit = .returned none)
    (h2 : ∀ b ∈ changeBatches (Ensure ρ1 c1 (runOps freshProvider ops) record zone).events,
      c2.route53 b = none) :
    (Ensure ρ2 c2 (Ensure ρ1 c1 (runOps freshProvider ops) record zone).provider record zone).exit
        = .returned none
    ∧ changeBatches
        (Ensure ρ2 c2 (Ensure ρ1 c1 (runOps freshProvider ops) record zone).provider
          record zone).events
        = changeBatches (Ensure ρ1 c1 (runOps freshProvider ops) record zone).events
    ∧ (∃ b, changeBatches (Ensure ρ1 c1 (runOps freshProvider ops) record zone).events = [b]
        ∧ c1.route53 b = none)
    ∧ (Ensure ρ2 c2 (Ensure ρ1 c1 (runOps freshProvider ops) record zone).provider
          record zone).provider
        = (Ensure ρ1 c1 (runOps freshProvider ops) record zone).provider
    ∧ applyEvents (applyEvents store (Ensure ρ1 c1 (runOps freshProvider ops) record zone).events)
        (Ensure ρ2 c2 (Ensure ρ1 c1 (runOps freshProvider ops) record zone).provider
          record zone).events
        = applyEvents store (Ensure ρ1 c1 (runOps freshProvider ops) record zone).events := by
  -- the caches after the first call are again reachable, so they hold each tag set once
  have hreach : (Ensure ρ1 c1 (runOps freshProvider ops) record zone).provider
      = runOps freshProvider (ops ++ [.ensure ρ1 c1 record zone]) := by
    rw [runOps_append]
    rfl
  have huniq := runOps_unique_for zone.Tags (ops ++ [.ensure ρ1 c1 record zone]) freshProvider
    (fun e1 he1 => by simp [freshProvider, GoMap.empty] at he1)
  rw [← hreach] at huniq
  unfold Ensure at h1 h2 huniq ⊢
  obtain ⟨target, rest, zoneID, lbZoneID, ht, hd, hT, hl, hz, hlb, hu, hprov, hev⟩ :=
    change_success ρ1 c1 _ record zone upsertAction h1
  generalize runOps freshProvider ops = m at *
  have hbatches : changeBatches (change ρ1 c1 m record zone upsertAction).events
      = [aliasInput record.Spec.DNSName zoneID target lbZoneID upsertAction] := by
    rw [hev, changeBatches_append, changeBatches_append, changeBatches_getZoneID,
      changeBatches_getLBHostedZone]
    rfl
  -- the load balancer is cached
  have hlb2 : getLBHostedZone c2 (change ρ1 c1 m record zone upsertAction).provider target
      = ⟨.ok lbZoneID, (change ρ1 c1 m record zone upsertAction).provider, []⟩ := by
    apply getLBHostedZone_hit
    rw [hprov]
    exact getLBHostedZone_ok_cached c1 _ target lbZoneID hlb
  -- the zone is given, or cached under one ID only
  have hz2 : getZoneID ρ2 c2 (change ρ1 c1 m record zone upsertAction).provider zone
      = ⟨.ok zoneID, (change ρ1 c1 m record zone upsertAction).provider, []⟩ := by
    by_cases h0 : zone.ID = ""
    · obtain ⟨t, hmem, hde⟩ := getZoneID_ok_cached ρ1 c1 m zone zoneID h0 hz
      have hmem2 : (zoneID, t) ∈ (change ρ1 c1 m record zone upsertAction).provider.idsToTags.entries := by
        rw [hprov, getLBHostedZone_idsToTags]
        exact hmem
      cases hf : (ρ2.visit (change ρ1 c1 m record zone upsertAction).provider.idsToTags.entries).find?
          (fun e => deepEqual e.2 zone.Tags) with
      | none =>
        have := (find_visit_eq_none ρ2 _ _).1 hf _ hmem2
        rw [hde] at this
        cases this
      | some e =>
        obtain ⟨he, hde2⟩ := find_visit_eq_some ρ2 _ _ e hf
        have hez : e.1 = zoneID := huniq e he _ hmem2 hde2 hde
        rw [getZoneID_hit ρ2 c2 _ zone e h0 hf, hez]
    · rw [getZoneID_explicit ρ1 c1 m zone h0] at hz
      obtain rfl := Except.ok.inj hz
      exact getZoneID_explicit ρ2 c2 _ zone h0
  have hu2 : (updateAlias c2 record.Spec.DNSName zoneID target lbZoneID upsertAction).1 = none :=
    (updateAlias_upsert_none_iff c2 _ _ _ _).2 (h2 _ (by rw [hbatches]; exact List.mem_singleton.2 rfl))
  obtain ⟨hexit, hprov2, hev2⟩ := change_of_resolved ρ2 c2 _ record zone upsertAction target
    zoneID lbZoneID rest ht hd hT hl hz2 hlb2 hu2
  refine ⟨hexit, ?_, ⟨_, hbatches, (updateAlias_upsert_none_iff c1 _ _ _ _).1 hu⟩, hprov2, ?_⟩
  · rw [hev2, hbatches]
    rfl
  · simp only [applyEvents, hbatches, hev2]
    simp [changeBatches, applyBatch, aliasInput, applyChange]

/-- With a zone already cached, a first `Ensure` against the demo cluster
succeeds; a second one succeeds as well, with the same batch, even though every
inventory is empty by then and the cache is visited in another order. -/
theorem C10_ensure_twice_witness :
    (Ensure reversedOrder emptyClients
        (Ensure storedOrder demoClients
          (runOps freshProvider [.getZoneID storedOrder otherClients ⟨"", tagsAB "1" "2"⟩])
          demoRecord demoZone).provider demoRecord demoZone).exit = .returned none
      ∧ changeBatches (Ensure reversedOrder emptyClients
          (Ensure storedOrder demoClients
            (runOps freshProvider [.getZoneID storedOrder otherClients ⟨"", tagsAB "1" "2"⟩])
            demoRecord demoZone).provider demoRecord demoZone).events
        = changeBatches (Ensure storedOrder demoClients
            (runOps freshProvider [.getZoneID storedOrder otherClients ⟨"", tagsAB "1" "2"⟩])
            demoRecord demoZone).events :=
  have h := C10_ensure_idempotent [.getZoneID storedOrder otherClients ⟨"", tagsAB "1" "2"⟩]
    storedOrder reversedOrder demoClients emptyClients demoRecord demoZone (fun _ => none)
    rfl (fun _ _ => rfl)
  ⟨h.1, h.2.1⟩

/-- Deleting a record that the record service reports as not found is a success. -/
theorem C3_delete_absent_witness :
    (updateAlias absentRecordClients "apps.demo.example.com" "Z1" "lb-123.example.com" "ZLB1"
      deleteAction).1 = none :=
  (C3_updateAlias_no_error_iff absentRecordClients "apps.demo.example.com" "Z1"
    "lb-123.example.com" "ZLB1" deleteAction).1.2
    (Or.inr ⟨rfl, "InvalidChangeBatch",
      "Tried to delete resource record set but it was not found", rfl, by decide⟩)

/-! ## Client configuration without custom endpoints -/

/-- C11: for a configuration without service endpoints and a region other than
`cn-north-1` and `cn-northwest-1`, `getAwsConfig` succeeds for every service, sets
no endpoint, and sets the region to `us-east-1` for the services `route53` and
`tagging` and to the given region for every other service. -/
theorem C11_default_region_by_service (parse : UriParser) (c : Config) (region service : String)
    (hr1 : region ≠ "cn-north-1") (hr2 : region ≠ "cn-northwest-1")
    (hc : c.ServiceEndpoints = []) :
    (∃ cfg, getAwsConfig parse c region service = .ok cfg ∧ cfg.Endpoint = none
      ∧ cfg.Region = some (if service = "route53" ∨ service = "tagging" then "us-east-1"
          else region))
    ∧ getAwsConfig parse c region "route53" = .ok ⟨some "us-east-1", none⟩
    ∧ getAwsConfig parse c region "tagging" = .ok ⟨some "us-east-1", none⟩
    ∧ getAwsConfig parse c region "elasticloadbalancing" = .ok ⟨some region, none⟩ := by
  have h1 : ¬ (region = CnNorth1RegionID ∨ region = CnNorthwest1RegionID) := by
    rintro (h | h)
    · exact hr1 h
    · exact hr2 h
  have hgen : ∀ s : String, getAwsConfig parse c region s
      = .ok ⟨some (if s = "route53" ∨ s = "tagging" then "us-east-1" else region), none⟩ := by
    intro s
    simp only [getAwsConfig, h1, if_false, hc, List.length_nil, gt_iff_lt, lt_self_iff_false,
      TaggingService, Route53Service, UsEast1RegionID, NewConfig, AwsConfig.WithRegion]
    by_cases ht : s = "tagging"
    · simp [ht]
    · by_cases hr : s = "route53"
      · simp [hr]
      · simp [ht, hr]
  refine ⟨⟨_, hgen service, rfl, rfl⟩, ?_, ?_, ?_⟩
  · rw [hgen]
    rfl
  · rw [hgen]
    rfl
  · rw [hgen]
    rfl

/-- In the region `us-west-2` the Route 53 client is configured for `us-east-1`,
with no endpoint. -/
theorem C11_default_region_witness :
    getAwsConfig hostOnlyParser plainConfig "us-west-2" "route53" = .ok ⟨some "us-east-1", none⟩ :=
  (C11_default_region_by_service hostOnlyParser plainConfig "us-west-2" "route53"
    (by decide) (by decide) rfl).2.1

/-- C12: `ValidateServiceEndpoint` returns an error exactly when the URI does not
parse as a request URI, or its host contains "route53" and the URI is neither of
the two supported Route 53 endpoints, or its host contains "tagging" and the URI
is neither of the two supported tagging endpoints.  In particular a parseable
URI whose host mentions neither service is accepted. -/
theorem C12_endpoint_rejected_iff (parse : UriParser) (uri : String) :
    (ValidateServiceEndpoint parse uri ≠ none ↔
      ((∃ msg, parse uri = .error msg)
        ∨ ∃ u, parse uri = .ok u ∧
          ((strContains u.Host "route53" = true
              ∧ uri ≠ "https://route53.amazonaws.com"
              ∧ uri ≠ "https://route53.us-east-1.amazonaws.com")
            ∨ (strContains u.Host "tagging" = true
              ∧ uri ≠ "https://tagging.amazonaws.com"
              ∧ uri ≠ "https://tagging.us-east-1.amazonaws.com"))))
    ∧ (∀ u, parse uri = .ok u → strContains u.Host "route53" = false →
        strContains u.Host "tagging" = false → ValidateServiceEndpoint parse uri = none) := by
  have e1 : route53NonRegionalizedEndpoint = "https://route53.amazonaws.com" := by decide
  have e2 : route53UsEastEndpoint = "https://route53.us-east-1.amazonaws.com" := by decide
  have e3 : taggingNonRegionalizedEndpoint = "https://tagging.amazonaws.com" := by decide
  have e4 : taggingUsEastEndpoint = "https://tagging.us-east-1.amazonaws.com" := by decide
  have e5 : Route53Service = "route53" := rfl
  have e6 : TaggingService = "tagging" := rfl
  unfold ValidateServiceEndpoint
  rw [e1, e2, e3, e4, e5, e6]
  cases hp : parse uri with
  | error msg => simp
  | ok u =>
    simp only [Except.ok.injEq, exists_eq_left', reduceCtorEq, exists_false, false_or,
      forall_eq']
    constructor
    · by_cases hr : strContains u.Host "route53" = true
        ∧ uri ≠ "https://route53.amazonaws.com" ∧ uri ≠ "https://route53.us-east-1.amazonaws.com"
      · have hc : (strContains u.Host "route53" && (uri != "https://route53.amazonaws.com"
            && uri != "https://route53.us-east-1.amazonaws.com")) = true := by
          simpa using hr
        simp only [hc, if_true]
        simp [hr]
      · have hc : ¬ (strContains u.Host "route53" && (uri != "https://route53.amazonaws.com"
            && uri != "https://route53.us-east-1.amazonaws.com")) = true := by
          simpa using hr
        simp only [hc, if_false, hr, false_or]
        by_cases ht : strContains u.Host "tagging" = true
          ∧ uri ≠ "https://tagging.amazonaws.com" ∧ uri ≠ "https://tagging.us-east-1.amazonaws.com"
        · have hc2 : (strContains u.Host "tagging" && (uri != "https://tagging.amazonaws.com"
              && uri != "https://tagging.us-east-1.amazonaws.com")) = true := by
            simpa using ht
          simp only [hc2, if_true]
          simp [ht]
        · have hc2 : ¬ (strContains u.Host "tagging" && (uri != "https://tagging.amazonaws.com"
              && uri != "https://tagging.us-east-1.amazonaws.com")) = true := by
            simpa using ht
          simp only [hc2, if_false, ht]
          simp
    · intro h1 h2
      simp [h1, h2]

/-- A Route 53 endpoint that names the region `us-east-2` is rejected. -/
theorem C12_other_region_witness :
    ValidateServiceEndpoint hostOnlyParser "https://route53.us-east-2.amazonaws.com" ≠ none :=
  (C12_endpoint_rejected_iff hostOnlyParser "https://route53.us-east-2.amazonaws.com").1.2
    (Or.inr ⟨⟨"https", "route53.us-east-2.amazonaws.com"⟩, rfl,
      Or.inl ⟨by decide, by decide, by decide⟩⟩)

/-! ## URI validation -/

theorem port_digits (u : URL) : ∀ c ∈ u.Port.data, isDigitChar c = true := by
  unfold URL.Port
  split
  · split
    · rename_i hall
      exact fun c hc => List.all_eq_true.1 hall c hc
    · simp
  · simp

theorem digitsValueFrom_of_digits (l : List Char) (h : ∀ c ∈ l, isDigitChar c = true) :
    ∀ n, ∃ v, digitsValueFrom n l = some v := by
  induction l with
  | nil => exact fun n => ⟨n, rfl⟩
  | cons c cs ih =>
    intro n
    have hc := h c (List.mem_cons_self _ _)
    simp only [digitsValueFrom, hc, if_true]
    exact ih (fun d hd => h d (List.mem_cons_of_mem _ hd)) _

theorem atoi_of_digits (s : String) (v : Nat) (hne : s ≠ "")
    (hd : ∀ c ∈ s.data, isDigitChar c = true) (hv : digitsValueFrom 0 s.data = some v) :
    atoi s = if v < 2 ^ 63 then .ok (v : Int) else .error .outOfRange := by
  unfold atoi
  cases hs : s.data with
  | nil =>
    exfalso
    apply hne
    cases s
    simp_all
  | cons c cs =>
    have hc : isDigitChar c = true := hd c (by rw [hs]; exact List.mem_cons_self _ _)
    have h1 : c ≠ '-' := by
      rintro rfl
      revert hc
      decide
    have h2 : c ≠ '+' := by
      rintro rfl
      revert hc
      decide
    rw [hs] at hv
    simp [h1, h2, hv]

theorem validatePort_none_iff (p : Int) : ValidatePort p = none ↔ 1 ≤ p ∧ p ≤ 65535 := by
  unfold ValidatePort IsValidPortNum
  by_cases h : 1 ≤ p ∧ p ≤ 65535
  · simp [h]
  · simp [h]

/-- What `ValidateURI` accepts: it returns no error exactly when the URI parses
as a request URI, its scheme is "https" whenever `requireHTTPS` is true, and it
carries no port or a port whose integer value is between 1 and 65535;
`ValidatePort` returns no error exactly for the ports 1 to 65535, so 0 and 65536
are rejected.  A URI without a scheme is rejected when `requireHTTPS` is true,
and so is every text that does not parse as a request URI. -/
theorem validateURI_accepted_iff (parse : UriParser) (uri : String) (requireHTTPS : Bool) :
    (ValidateURI parse uri requireHTTPS = none ↔
      ∃ u, parse uri = .ok u ∧ (requireHTTPS = true → u.Scheme = "https")
        ∧ (u.Port = "" ∨ ∃ p : Nat, digitsValueFrom 0 u.Port.data = some p ∧ 1 ≤ p ∧ p ≤ 65535))
    ∧ (∀ p : Int, ValidatePort p = none ↔ 1 ≤ p ∧ p ≤ 65535)
    ∧ ValidatePort 0 ≠ none ∧ ValidatePort 65536 ≠ none
    ∧ (∀ u, parse uri = .ok u → u.Scheme = "" → ValidateURI parse uri true ≠ none)
    ∧ (∀ msg, parse uri = .error msg → ValidateURI parse uri requireHTTPS ≠ none) := by
  refine ⟨?_, validatePort_none_iff, by decide, by decide, ?_, ?_⟩
  · unfold ValidateURI
    cases hp : parse uri with
    | error msg => simp
    | ok u =>
      simp only [Except.ok.injEq, exists_eq_left']
      by_cases hs : requireHTTPS = true ∧ u.Scheme ≠ "https"
      · have hc : (requireHTTPS && u.Scheme != SchemeHTTPS) = true := by
          simpa [SchemeHTTPS] using hs
        simp only [hc, if_true, reduceCtorEq, false_iff, not_and]
        intro h
        exact absurd (h hs.1) hs.2
      · have hc : ¬ (requireHTTPS && u.Scheme != SchemeHTTPS) = true := by
          simpa [SchemeHTTPS] using hs
        have hs2 : requireHTTPS = true → u.Scheme = "https" := by
          intro h
          by_contra hne
          exact hs ⟨h, hne⟩
        have hinner : (if (u.Port.length != 0) = true then
              match atoi u.Port with
              | .error err => some (UriError.portConversion uri err)
              | .ok intPort =>
                match ValidatePort intPort with
                | some err => some (UriError.portValidation uri err)
                | none => none
            else none) = none
            ↔ (u.Port = "" ∨ ∃ p : Nat, digitsValueFrom 0 u.Port.data = some p
                ∧ 1 ≤ p ∧ p ≤ 65535) := by
          by_cases hport : u.Port = ""
          · simp [hport]
          · have hlen : (u.Port.length != 0) = true := by
              simpa using fun h0 => hport ((length_eq_zero_iff _).1 h0)
            obtain ⟨v, hv⟩ := digitsValueFrom_of_digits u.Port.data (port_digits u) 0
            rw [atoi_of_digits u.Port v hport (port_digits u) hv, if_pos hlen]
            simp only [hport, false_or, hv, Option.some.injEq, exists_eq_left']
            by_cases hr : v < 2 ^ 63
            · rw [if_pos hr]
              cases hvp : ValidatePort (v : Int) with
              | none =>
                have hb := (validatePort_none_iff _).1 hvp
                simp only [hvp, true_iff]
                exact ⟨by exact_mod_cast hb.1, by exact_mod_cast hb.2⟩
              | some err =>
                simp only [hvp, reduceCtorEq, false_iff]
                intro hb
                have hn : ValidatePort (v : Int) = none :=
                  (validatePort_none_iff _).2 ⟨by exact_mod_cast hb.1, by exact_mod_cast hb.2⟩
                rw [hvp] at hn
                cases hn
            · rw [if_neg hr]
              simp only [reduceCtorEq, false_iff]
              intro hb
              have h63 : (65535 : Nat) < 2 ^ 63 := by norm_num
              omega
        rw [if_neg hc]
        exact ⟨fun h => ⟨hs2, hinner.1 h⟩, fun h => hinner.2 h.2⟩
  · intro u hp hs
    simp [ValidateURI, hp, hs, SchemeHTTPS]
  · intro msg hp
    simp [ValidateURI, hp]

/-- The port 8080 of an https URI is accepted when https is required. -/
theorem validateURI_https_port_example :
    ValidateURI simpleParser "https://EXAMPLe.com:8080/" true = none :=
  (validateURI_accepted_iff simpleParser "https://EXAMPLe.com:8080/" true).1.2
    ⟨⟨"https", "EXAMPLe.com:8080"⟩, rfl, fun _ => rfl,
      Or.inr ⟨8080, by decide, by decide, by decide⟩⟩

/-- C13 (defect of the code): a URI without a scheme is not always rejected.
`ValidateURI` looks at the scheme only when `requireHTTPS` is true, so with
`requireHTTPS` false every text that parses as a request URI and carries no port
is accepted, whatever its scheme: an absolute path, which has no scheme at all,
and a URI of another scheme than http or https as well. -/
theorem C13_scheme_unchecked_without_https (parse : UriParser) (uri : String) (u : URL)
    (hp : parse uri = .ok u) (hport : u.Port = "") :
    ValidateURI parse uri false = none := by
  simp [ValidateURI, hp, hport]

/-- The absolute path `/healthz` parses as a request URI without scheme or host,
and is accepted when https is not required. -/
theorem C13_schemeless_path_witness :
    simpleParser "/healthz" = .ok ⟨"", ""⟩
      ∧ ValidateURI simpleParser "/healthz" false = none :=
  ⟨rfl, C13_scheme_unchecked_without_https simpleParser "/healthz" ⟨"", ""⟩ rfl (by decide)⟩

/-! ## The inventory search of the zone resolver -/

theorem zoneFn_cons (st : String × Option Error) (zone : ResourceTagMapping)
    (rest : List ResourceTagMapping) :
    zoneFn st (zone :: rest) = zoneFn st [zone] ∧ (zoneFn st (zone :: rest)).2 = false := by
  unfold zoneFn
  refine ⟨rfl, ?_⟩
  dsimp only
  repeat' split
  all_goals rfl

theorem eachPage_zoneFn (err : Option SvcError) (pages : List (List ResourceTagMapping)) :
    ∀ st : String × Option Error,
      eachPage zoneFn st pages err =
        match pages.flatten with
        | [] => (st, err)
        | zone :: _ => ((zoneFn st [zone]).1, none) := by
  induction pages with
  | nil => exact fun st => rfl
  | cons page rest ih =>
    intro st
    cases page with
    | nil =>
      rw [List.flatten_cons, List.nil_append, ← ih st]
      rfl
    | cons zone more =>
      obtain ⟨h1, h2⟩ := zoneFn_cons st zone more
      rw [List.flatten_cons, List.cons_append, eachPage]
      simp only
      rw [← h1]
      cases hz : zoneFn st (zone :: more) with
      | mk st1 cont =>
        rw [hz] at h2
        simp only at h2
        subst h2
        rfl

theorem getZoneID_search (ρ : RangeOrder) (c : Clients) (m : Provider) (zone : DNSZone)
    (h0 : zone.ID = "")
    (hmiss : (ρ.visit m.idsToTags.entries).find? (fun e => deepEqual e.2 zone.Tags) = none) :
    getZoneID ρ c m zone =
      match (c.tags zone.Tags).pages.flatten with
      | [] =>
        match (c.tags zone.Tags).err with
        | some err =>
          ⟨.error (.getTaggedResources (.svc err)), m,
            [.getResourcesPages ["route53:hostedzone"] zone.Tags]⟩
        | none =>
          ⟨.error .noMatchingHostedZone, m, [.getResourcesPages ["route53:hostedzone"] zone.Tags]⟩
      | first :: _ =>
        match (zoneFn ("", none) [first]).1 with
        | (_, some err) =>
          ⟨.error (.getTaggedResources err), m,
            [.getResourcesPages ["route53:hostedzone"] zone.Tags]⟩
        | (id, none) =>
          if id = "" then
            ⟨.error .noMatchingHostedZone, m, [.getResourcesPages ["route53:hostedzone"] zone.Tags]⟩
          else
            ⟨.ok id, { m with idsToTags := m.idsToTags.set id zone.Tags },
              [.getResourcesPages ["route53:hostedzone"] zone.Tags]⟩ := by
  have h00 : ¬ ("".length > 0) := by decide
  simp only [getZoneID, h0, h00, if_false, hmiss, eachPage_zoneFn]
  cases hfl : (c.tags zone.Tags).pages.flatten with
  | nil =>
    cases herr : (c.tags zone.Tags).err with
    | none => simp [newAggregate]
    | some err => simp [newAggregate]
  | cons first rest =>
    simp only
    rcases hzf : (zoneFn ("", none) [first]).1 with ⟨id, _ | err⟩
    · by_cases hid : id = ""
      · simp [newAggregate, hid]
      · have hlen : ¬ id.length = 0 := fun hl => hid ((length_eq_zero_iff _).1 hl)
        simp [newAggregate, hid, hlen]
    · simp [newAggregate]

theorem zoneFn_single (zone : ResourceTagMapping) :
    (∀ err, arnParse (stringValue zone.ResourceARN) = .error err →
      (zoneFn ("", none) [zone]).1
        = ("", some (.parseHostedZoneARN (stringValue zone.ResourceARN) err)))
    ∧ (∀ arn id, arnParse (stringValue zone.ResourceARN) = .ok arn →
      strSplit arn.Resource '/' = ["hostedzone", id] →
      (zoneFn ("", none) [zone]).1 = (id, none))
    ∧ (∀ arn, arnParse (stringValue zone.ResourceARN) = .ok arn →
      (∀ id, strSplit arn.Resource '/' ≠ ["hostedzone", id]) →
      (zoneFn ("", none) [zone]).1 = ("", some (.unexpectedResourceARN arn))) := by
  refine ⟨fun err h => ?_, fun arn id h hs => ?_, fun arn h hs => ?_⟩
  · simp [zoneFn, h]
  · simp [zoneFn, h, hs]
  · simp only [zoneFn, h]
    split
    · rename_i kind zoneID hk
      by_cases hkind : kind = "hostedzone"
      · exact absurd (hkind ▸ hk) (hs zoneID)
      · simp [hkind]
    · rfl

/-- C14, as stated, fails: the first candidate's ARN ends right after
`hostedzone/`, so the zone ID read from it is empty; the search stops there,
and the call reports "no matching hosted zone found" although a page holds
candidates (a well-formed one among them). -/
theorem C14_blank_zone_id_counterexample :
    (blankZoneClients.tags (oneTag "a" "1")).err = none
      ∧ (blankZoneClients.tags (oneTag "a" "1")).pages.flatten
          = [⟨some "arn:aws:route53:::hostedzone/"⟩, ⟨some "arn:aws:route53:::hostedzone/Z9"⟩]
      ∧ getZoneID storedOrder blankZoneClients freshProvider ⟨"", oneTag "a" "1"⟩
          = ⟨.error .noMatchingHostedZone, freshProvider,
              [.getResourcesPages ["route53:hostedzone"] (oneTag "a" "1")]⟩ :=
  ⟨rfl, rfl, rfl⟩

/-- C14 (amended): for a zone spec without an explicit ID that misses the cache.
When the inventory delivers its pages without a query error, `getZoneID` reports
"no matching hosted zone found" exactly when no page holds a candidate, or the
first candidate's ARN is well formed with an empty zone ID.  When some page
holds a candidate, the first candidate of the first non-empty page alone
decides, whatever follows it: a resource part `hostedzone/<id>` with a non-empty
ID makes the call return that ID and cache it for the spec's tags; an ARN that
does not parse, or whose resource part is not of that form, makes it report the
parse failure and leave the caches alone. -/
theorem C14_first_candidate_decides (ρ : RangeOrder) (c : Clients) (m : Provider)
    (zone : DNSZone) (h0 : zone.ID = "")
    (hmiss : (ρ.visit m.idsToTags.entries).find? (fun e => deepEqual e.2 zone.Tags) = none) :
    ((c.tags zone.Tags).err = none →
      ((getZoneID ρ c m zone).ret = .error .noMatchingHostedZone ↔
        ((c.tags zone.Tags).pages.flatten = []
          ∨ ∃ first rest arn, (c.tags zone.Tags).pages.flatten = first :: rest
              ∧ arnParse (stringValue first.ResourceARN) = .ok arn
              ∧ strSplit arn.Resource '/' = ["hostedzone", ""])))
    ∧ (∀ first rest, (c.tags zone.Tags).pages.flatten = first :: rest →
        (∀ arn id, arnParse (stringValue first.ResourceARN) = .ok arn →
          strSplit arn.Resource '/' = ["hostedzone", id] → id ≠ "" →
          getZoneID ρ c m zone
            = ⟨.ok id, { m with idsToTags := m.idsToTags.set id zone.Tags },
                [.getResourcesPages ["route53:hostedzone"] zone.Tags]⟩)
        ∧ (∀ err, arnParse (stringValue first.ResourceARN) = .error err →
          getZoneID ρ c m zone
            = ⟨.error (.getTaggedResources
                  (.parseHostedZoneARN (stringValue first.ResourceARN) err)), m,
                [.getResourcesPages ["route53:hostedzone"] zone.Tags]⟩)
        ∧ (∀ arn, arnParse (stringValue first.ResourceARN) = .ok arn →
          (∀ id, strSplit arn.Resource '/' ≠ ["hostedzone", id]) →
          getZoneID ρ c m zone
            = ⟨.error (.getTaggedResources (.unexpectedResourceARN arn)), m,
                [.getResourcesPages ["route53:hostedzone"] zone.Tags]⟩)) := by
  have hsearch := getZoneID_search ρ c m zone h0 hmiss
  refine ⟨fun herr => ?_, fun first rest hfl => ?_⟩
  · rw [hsearch, herr]
    cases hfl : (c.tags zone.Tags).pages.flatten with
    | nil => simp
    | cons first rest =>
      obtain ⟨hz1, hz2, hz3⟩ := zoneFn_single first
      simp only [reduceCtorEq, false_or, List.cons.injEq]
      cases hp : arnParse (stringValue first.ResourceARN) with
      | error err =>
        rw [hz1 err hp]
        simp only [Except.error.injEq, reduceCtorEq, false_iff]
        rintro ⟨f2, r2, arn, ⟨rfl, -⟩, hp2, -⟩
        rw [hp] at hp2
        cases hp2
      | ok arn =>
        by_cases hx : ∃ id, strSplit arn.Resource '/' = ["hostedzone", id]
        · obtain ⟨id, hid⟩ := hx
          rw [hz2 arn id hp hid]
          by_cases hempty : id = ""
          · subst hempty
            simp only [if_true, true_iff]
            exact ⟨first, rest, arn, ⟨rfl, rfl⟩, hp, hid⟩
          · simp only [hempty, if_false, Except.error.injEq, reduceCtorEq, false_iff]
            rintro ⟨f2, r2, arn2, ⟨rfl, -⟩, hp2, hs2⟩
            rw [hp] at hp2
            obtain rfl := Except.ok.inj hp2
            rw [hid] at hs2
            simp only [List.cons.injEq, and_true, true_and] at hs2
            exact hempty hs2
        · have hx2 : ∀ id, strSplit arn.Resource '/' ≠ ["hostedzone", id] :=
            fun id hid => hx ⟨id, hid⟩
          rw [hz3 arn hp hx2]
          simp only [Except.error.injEq, reduceCtorEq, false_iff]
          rintro ⟨f2, r2, arn2, ⟨rfl, -⟩, hp2, hs2⟩
          rw [hp] at hp2
          obtain rfl := Except.ok.inj hp2
          exact hx2 "" hs2
  · obtain ⟨hz1, hz2, hz3⟩ := zoneFn_single first
    rw [hsearch, hfl]
    simp only
    refine ⟨fun arn id hp hs hid => ?_, fun err hp => ?_, fun arn hp hs => ?_⟩
    · rw [hz2 arn id hp hs]
      simp [hid]
    · rw [hz1 err hp]
    · rw [hz3 arn hp hs]

/-- The first page is empty, the second starts with zone `Z7`: the call returns
`Z7` and caches it; the zone `Z8`, the malformed ARN on the next page and the
failing request behind it are never reached. -/
theorem C14_first_candidate_witness :
    getZoneID storedOrder pagedZoneClients freshProvider ⟨"", oneTag "a" "1"⟩
      = ⟨.ok "Z7", { freshProvider with
            idsToTags := freshProvider.idsToTags.set "Z7" (oneTag "a" "1") },
          [.getResourcesPages ["route53:hostedzone"] (oneTag "a" "1")]⟩ :=
  ((C14_first_candidate_decides storedOrder pagedZoneClients freshProvider
      ⟨"", oneTag "a" "1"⟩ rfl rfl).2
    ⟨some "arn:aws:route53:::hostedzone/Z7"⟩
    [⟨some "arn:aws:route53:::hostedzone/Z8"⟩, ⟨some "not-an-arn"⟩] rfl).1
    ⟨"aws", "route53", "", "", "hostedzone/Z7"⟩ "Z7" rfl (by decide) (by decide)

/-! ## Reachable caches -/

theorem GoMap.eq_of_key_eq {V : Type} (m : GoMap V) (e1 e2 : String × V)
    (h1 : e1 ∈ m.entries) (h2 : e2 ∈ m.entries) (hk : e1.1 = e2.1) : e1 = e2 := by
  have g1 : m.get? e1.1 = some e1.2 := (GoMap.get?_eq_some_iff m e1.1 e1.2).2 h1
  have g2 : m.get? e2.1 = some e2.2 := (GoMap.get?_eq_some_iff m e2.1 e2.2).2 h2
  rw [hk, g2] at g1
  exact Prod.ext hk (Option.some.inj g1).symm

theorem runOps_keys_nonempty (ops : List Op) :
    ∀ m : Provider, (∀ e ∈ m.idsToTags.entries, e.1 ≠ "") →
      ∀ e ∈ (runOps m ops).idsToTags.entries, e.1 ≠ "" := by
  induction ops with
  | nil => exact fun m h => h
  | cons op ops ih =>
    intro m h
    rw [runOps_cons]
    apply ih
    rcases opRun_idsToTags m op with ⟨_, h2⟩ | ⟨id, tags, _, hid, _, h2⟩
    · rw [h2]
      exact h
    · rw [h2]
      intro e he
      rcases (GoMap.mem_set _ _ _ _).1 he with rfl | ⟨hm, _⟩
      · exact hid
      · exact h e hm

/-- C15: in every provider state reachable from the fresh caches by a sequence of
calls (`getZoneID` calls, and `getLBHostedZone`, `Ensure` and `Delete` calls as
well), no two distinct zone IDs of `idsToTags` carry tag mappings that are
`reflect.DeepEqual`, and no key of `idsToTags` is the empty string.  Hence the
cache-hit scan has at most one matching entry for any tag mapping, and a call
answered from the cache returns the same result under every iteration order. -/
theorem C15_reachable_cache_unambiguous (ops : List Op) :
    (∀ e1 ∈ (runOps freshProvider ops).idsToTags.entries,
      ∀ e2 ∈ (runOps freshProvider ops).idsToTags.entries,
        deepEqual e1.2 e2.2 = true → e1.1 = e2.1)
    ∧ (∀ e ∈ (runOps freshProvider ops).idsToTags.entries, e.1 ≠ "")
    ∧ (∀ (T : Tags), ∀ e1 ∈ (runOps freshProvider ops).idsToTags.entries,
        ∀ e2 ∈ (runOps freshProvider ops).idsToTags.entries,
          deepEqual e1.2 T = true → deepEqual e2.2 T = true → e1 = e2)
    ∧ (∀ (ρ1 ρ2 : RangeOrder) (c1 c2 : Clients) (zone : DNSZone),
        (getZoneID ρ1 c1 (runOps freshProvider ops) zone).events = [] →
        getZoneID ρ2 c2 (runOps freshProvider ops) zone
          = getZoneID ρ1 c1 (runOps freshProvider ops) zone) := by
  have hfresh : ∀ e ∈ freshProvider.idsToTags.entries, False := by
    intro e he
    simp [freshProvider, GoMap.empty] at he
  have huniq : ∀ T : Tags, ∀ e1 ∈ (runOps freshProvider ops).idsToTags.entries,
      ∀ e2 ∈ (runOps freshProvider ops).idsToTags.entries,
      deepEqual e1.2 T = true → deepEqual e2.2 T = true → e1.1 = e2.1 :=
    fun T => runOps_unique_for T ops freshProvider (fun e1 he1 => (hfresh e1 he1).elim)
  refine ⟨fun e1 he1 e2 he2 hd => huniq e2.2 e1 he1 e2 he2 hd (deepEqual_refl _),
    runOps_keys_nonempty ops freshProvider (fun e he => (hfresh e he).elim),
    fun T e1 he1 e2 he2 hd1 hd2 =>
      GoMap.eq_of_key_eq _ e1 e2 he1 he2 (huniq T e1 he1 e2 he2 hd1 hd2), ?_⟩
  intro ρ1 ρ2 c1 c2 zone hev
  by_cases h0 : zone.ID = ""
  · cases hf1 : (ρ1.visit (runOps freshProvider ops).idsToTags.entries).find?
        (fun e => deepEqual e.2 zone.Tags) with
    | none =>
      rw [(getZoneID_miss ρ1 c1 _ zone h0 hf1).1] at hev
      cases hev
    | some e1 =>
      obtain ⟨he1, hd1⟩ := find_visit_eq_some ρ1 _ _ e1 hf1
      cases hf2 : (ρ2.visit (runOps freshProvider ops).idsToTags.entries).find?
          (fun e => deepEqual e.2 zone.Tags) with
      | none =>
        have := (find_visit_eq_none ρ2 _ _).1 hf2 e1 he1
        rw [hd1] at this
        cases this
      | some e2 =>
        obtain ⟨he2, hd2⟩ := find_visit_eq_some ρ2 _ _ e2 hf2
        rw [getZoneID_hit ρ1 c1 _ zone e1 h0 hf1, getZoneID_hit ρ2 c2 _ zone e2 h0 hf2,
          huniq zone.Tags e2 he2 e1 he1 hd2 hd1]
  · rw [getZoneID_explicit ρ1 c1 _ zone h0, getZoneID_explicit ρ2 c2 _ zone h0]

/-- After two searches have cached `Z1` for `{a:1}` and `Z2` for `{a:1, b:2}`, a
lookup with the tags `{a:1}` gives the same result in both iteration orders. -/
theorem C15_order_independent_witness :
    getZoneID reversedOrder emptyClients
        (runOps freshProvider [.getZoneID storedOrder demoClients ⟨"", oneTag "a" "1"⟩,
          .getZoneID storedOrder otherClients ⟨"", tagsAB "1" "2"⟩])
        ⟨"", oneTag "a" "1"⟩
      = getZoneID storedOrder demoClients
        (runOps freshProvider [.getZoneID storedOrder demoClients ⟨"", oneTag "a" "1"⟩,
          .getZoneID storedOrder otherClients ⟨"", tagsAB "1" "2"⟩])
        ⟨"", oneTag "a" "1"⟩ :=
  (C15_reachable_cache_unambiguous
    [.getZoneID storedOrder demoClients ⟨"", oneTag "a" "1"⟩,
     .getZoneID storedOrder otherClients ⟨"", tagsAB "1" "2"⟩]).2.2.2
    storedOrder reversedOrder demoClients emptyClients ⟨"", oneTag "a" "1"⟩ rfl

end AwsDns
